import Mathlib

/-!
# Verification of the `pie_utils.sequence_tagging` encoding subsystem

A shallow embedding of `src/pie_utils/sequence_tagging/encoding.py`
(span <-> tag-sequence conversion for the IOB2 / BIOUL / BOUL schemes)
together with the ill-formed-sequence repair/removal module
`pie_utils.sequence_tagging.ill_formed`, which is not present in the
source tree (only its tests and callers are) and is therefore modelled
from the specification.

Tags are embedded as Lean `String`s, tag sequences as `List String`,
and Python exceptions as an explicit `Except PyErr` result.  Python
string operations used by the source (`label[0]`, `label.partition("-")[2]`,
`label[2:]`, `tag.startswith("I-")`) are defined on `String.data`.
-/

/-- The Python exceptions the embedded functions can raise. -/
inductive PyErr : Type
  /-- Python `IndexError`: a list index out of range. -/
  | indexError : PyErr
  /-- Python `AssertionError` (the overlap `assert` in `token_spans_to_tag_sequence`). -/
  | assertionError : PyErr
  /-- `InvalidTagSequence(tag_sequence)` from `pie_utils.sequence_tagging.ill_formed`. -/
  | invalidTagSequence : List String → PyErr
  /-- Python `ValueError` with its message. -/
  | valueError : String → PyErr
  deriving DecidableEq, Repr

-- Equality of embedded results is decidable (used to evaluate the
-- embedded functions on concrete inputs inside proofs).
deriving instance DecidableEq for Except

/-- Python `label[0]`.  Every tag reaching this operation in the embedded
code is a non-empty string; for the empty string we return a junk blank
(Python would raise `IndexError`, a case no claim exercises). -/
def strHead (s : String) : Char := s.data.headD ' '

/-- Python `label.partition("-")[2]`: everything after the first `"-"`,
or `""` when there is no `"-"`. -/
def strAfterDash (s : String) : String := ⟨(s.data.dropWhile (· ≠ '-')).drop 1⟩

/-- Python `label[2:]`. -/
def strDrop2 (s : String) : String := ⟨s.data.drop 2⟩

/-- Python `tag.startswith("I-")`. -/
def startsWithIDash (s : String) : Bool :=
  match s.data with
  | 'I' :: '-' :: _ => true
  | _ => false

/-- `TypedStringSpan = Tuple[str, Tuple[int, int]]` from the source:
`(label, (span_start, span_end))`. -/
abbrev TypedStringSpan := String × Nat × Nat

/-! ## `iob2_tags_to_spans` (encoding.py lines 24-70)

The `while` loop over `index` is embedded as a state machine: `pos` is
the Python `index` and `run` carries the span opened by the last `B`
(its label and start).  While a run is open, tags whose first character
is `I` are absorbed regardless of their own label; a tag whose first
character is `B` closes the current span at `pos - 1` and opens a new
one; any other tag closes the span and is skipped (this covers both the
`if label[0] == "B"` lookahead after a `B` — where `pos - 1` is the `B`
position itself — and the exit of the inner `while label[0] == "I"`
loop); the end of the sequence closes an open span at the last
position. -/

/-- The scan of `iob2_tags_to_spans`. -/
def iob2Go (pos : Nat) (run : Option (String × Nat)) :
    List String → List TypedStringSpan
  | [] =>
    match run with
    | none => []
    | some (l, start) => [(l, start, pos - 1)]
  | t :: rest =>
    if strHead t = 'I' then iob2Go (pos + 1) run rest
    else if strHead t = 'B' then
      match run with
      | some (l, start) =>
        (l, start, pos - 1) :: iob2Go (pos + 1) (some (strAfterDash t, pos)) rest
      | none => iob2Go (pos + 1) (some (strAfterDash t, pos)) rest
    else
      match run with
      | some (l, start) => (l, start, pos - 1) :: iob2Go (pos + 1) none rest
      | none => iob2Go (pos + 1) none rest

/-- `iob2_tags_to_spans(tag_sequence, classes_to_ignore)`. -/
def iob2_tags_to_spans (tag_sequence : List String)
    (classes_to_ignore : List String) : List TypedStringSpan :=
  (iob2Go 0 none tag_sequence).filter (fun span => !(classes_to_ignore.contains span.1))

/-! ## `bioul_tags_to_spans` (encoding.py lines 73-114)

The scan is embedded as a state machine: `run` carries the label and
start of the span opened by the last `B`.  The inner loop
`while label[0] != "L" and index < len(tag_sequence)` consumes every
tag silently until one whose first character is `L` closes the span;
it re-reads `tag_sequence[index]` after the increment, so when a run
reaches the end of the sequence without an `L` it raises `IndexError`
(the end of the sequence with an open run). -/

/-- The scan of `bioul_tags_to_spans`; `pos` is the Python `index`. -/
def bioulGo (pos : Nat) (run : Option (String × Nat)) :
    List String → Except PyErr (List TypedStringSpan)
  | [] =>
    match run with
    | none => .ok []
    | some _ => .error .indexError
  | t :: rest =>
    match run with
    | some (l, start) =>
      if strHead t = 'L' then
        match bioulGo (pos + 1) none rest with
        | .error e => .error e
        | .ok spans => .ok ((l, start, pos) :: spans)
      else bioulGo (pos + 1) run rest
    | none =>
      if strHead t = 'U' then
        match bioulGo (pos + 1) none rest with
        | .error e => .error e
        | .ok spans => .ok ((strAfterDash t, pos, pos) :: spans)
      else if strHead t = 'B' then
        bioulGo (pos + 1) (some (strAfterDash t, pos)) rest
      else bioulGo (pos + 1) none rest

/-- `bioul_tags_to_spans(tag_sequence, classes_to_ignore)`. -/
def bioul_tags_to_spans (tag_sequence : List String)
    (classes_to_ignore : List String) : Except PyErr (List TypedStringSpan) :=
  match bioulGo 0 none tag_sequence with
  | .error e => .error e
  | .ok spans => .ok (spans.filter (fun span => !(classes_to_ignore.contains span.1)))

/-! ## `bioul_to_boul` and `boul_to_bioul` (encoding.py lines 304-329) -/

/-- `bioul_to_boul(bioul_tags)`: replace every tag starting with `"I-"` by `"O"`. -/
def bioul_to_boul (bioul_tags : List String) : List String :=
  bioul_tags.map (fun tag => if startsWithIDash tag then "O" else tag)

/-- The scan of `boul_to_bioul`, embedded as a state machine: `run`
holds `tag_type` (= `label[2:]` of the opening `B`) while the inner
loop `while label[0] != "L" and index < len(tag_sequence)` is active.
A `B` is appended as-is and opens a run; inside a run every tag not
starting with `L` is replaced by `"I-" ++ tag_type` and the closing `L`
tag is appended as-is; the loop re-reads `tag_sequence[index]` after
the increment, so an open run at the end of the sequence raises
`IndexError`.  Outside a run, tags are appended unchanged.  (The
`label is None` branch of the source concerns `Optional[str]` entries
and is unreachable for a list of strings.) -/
def boulToBioulGo (run : Option String) : List String → Except PyErr (List String)
  | [] =>
    match run with
    | none => .ok []
    | some _ => .error .indexError
  | t :: rest =>
    match run with
    | some tagType =>
      if strHead t = 'L' then
        match boulToBioulGo none rest with
        | .error e => .error e
        | .ok tail => .ok (t :: tail)
      else
        match boulToBioulGo (some tagType) rest with
        | .error e => .error e
        | .ok tail => .ok (("I-" ++ tagType) :: tail)
    | none =>
      if strHead t = 'B' then
        match boulToBioulGo (some (strDrop2 t)) rest with
        | .error e => .error e
        | .ok tail => .ok (t :: tail)
      else
        match boulToBioulGo none rest with
        | .error e => .error e
        | .ok tail => .ok (t :: tail)

/-- `boul_to_bioul(tag_sequence)`. -/
def boul_to_bioul (tag_sequence : List String) : Except PyErr (List String) :=
  boulToBioulGo none tag_sequence

/-- `boul_tags_to_spans(tag_sequence, classes_to_ignore)` (encoding.py lines 332-340). -/
def boul_tags_to_spans (tag_sequence : List String)
    (classes_to_ignore : List String) : Except PyErr (List TypedStringSpan) :=
  match boul_to_bioul tag_sequence with
  | .error e => .error e
  | .ok bioulTags => bioul_tags_to_spans bioulTags classes_to_ignore

/-! ## `to_bioul` (encoding.py lines 117-224)

The stack-based IOB1/IOB2 -> BIOUL recoder.  The stack is kept in push
order (Python appends to the end; `stack[-1]` is the last element). -/

/-- `replace_label(full_label, new_label)`: replace the part of the tag
before the first `"-"` (or the whole tag, when there is no `"-"`). -/
def replace_label (full_label new_label : String) : String :=
  if full_label.data.contains '-' then new_label ++ "-" ++ strAfterDash full_label
  else new_label

/-- Recoding of the second and later stack entries in `process_stack`:
all of them become `I`, the last becomes `L`. -/
def processMid : List String → List String
  | [] => []
  | [last] => [replace_label last "L"]
  | t :: rest => replace_label t "I" :: processMid rest

/-- `process_stack(stack, out_stack)`: a one-element stack becomes `U`,
otherwise the run is coded as `B I* L`. -/
def process_stack : List String → List String
  | [] => []
  | [only] => [replace_label only "U"]
  | first :: more => replace_label first "B" :: processMid more

/-- The fold of `to_bioul` over the tag sequence, carrying the stack.
`orig` is the full input sequence (the payload of `InvalidTagSequence`). -/
def toBioulGo (orig : List String) (encoding : String) :
    List String → List String → Except PyErr (List String)
  | stack, [] =>
    -- "process the stack" left over at the end of the sequence
    .ok (if stack.isEmpty then [] else process_stack stack)
  | stack, label :: rest =>
    if label = "O" then
      match toBioulGo orig encoding [] rest with
      | .error e => .error e
      | .ok tail =>
        .ok ((if stack.isEmpty then [label] else process_stack stack ++ [label]) ++ tail)
    else if strHead label = 'I' then
      if stack.isEmpty then
        if encoding = "IOB2" then .error (.invalidTagSequence orig)
        else toBioulGo orig encoding (stack ++ [label]) rest
      else
        if strAfterDash label = strAfterDash (stack.getLastD "") then
          toBioulGo orig encoding (stack ++ [label]) rest
        else
          if encoding = "IOB2" then .error (.invalidTagSequence orig)
          else
            -- "a new entity"
            match toBioulGo orig encoding [label] rest with
            | .error e => .error e
            | .ok tail => .ok (process_stack stack ++ tail)
    else if strHead label = 'B' then
      match toBioulGo orig encoding [label] rest with
      | .error e => .error e
      | .ok tail =>
        .ok ((if stack.isEmpty then [] else process_stack stack) ++ tail)
    else .error (.invalidTagSequence orig)

/-- `to_bioul(tag_sequence, encoding)` (encoding.py lines 117-224). -/
def to_bioul (tag_sequence : List String) (encoding : String) :
    Except PyErr (List String) :=
  if encoding = "IOB1" ∨ encoding = "IOB2" then
    toBioulGo tag_sequence encoding [] tag_sequence
  else
    .error (.valueError ("Invalid encoding " ++ encoding ++ " passed to 'to_bioul'."))

/-- `to_boul(tag_sequence, encoding)` (encoding.py lines 299-301). -/
def to_boul (tag_sequence : List String) (encoding : String) :
    Except PyErr (List String) :=
  match to_bioul tag_sequence encoding with
  | .error e => .error e
  | .ok bioulTags => .ok (bioul_to_boul bioulTags)

/-! ## The `ill_formed` module, modelled from the spec

`pie_utils.sequence_tagging.ill_formed` (with `fix_bio` / `fix_bioul` /
`fix_boul`, `remove_bio` / `remove_bioul` / `remove_boul`,
`fix_ill_formed_tag_sequence` / `remove_ill_formed_tag_sequence`, and
`fix_encoding` / `remove_encoding`) is not part of the source tree; only
its tests (`tests/pie_utils/sequence_tagging/test_ill_formed.py`) and its
callers in `encoding.py` are.  The definitions below are modelled from
spec section 4.2 "Ill-Formedness Repair / Removal".  Where the spec
leaves the repair of an ill-formed permutation open (its section 9 notes
the exact repair table is not uniquely determined), the model follows
the behaviour pinned down by the in-repo test suite. -/

/-- Modelled from the spec: a tag is `"O"` or a scheme role letter,
a hyphen and a non-empty label; anything else "signals
`InvalidTagSequence` and is fatal".  Returns `none` for `"O"`,
the role letter and label otherwise; parse failure is `Option.none`
at the outer level. -/
def parseTag (alphabet : List Char) (t : String) : Option (Option (Char × String)) :=
  if t = "O" then some none
  else
    match t.data with
    | r :: '-' :: c :: cs => if alphabet.contains r then some (some (r, ⟨c :: cs⟩)) else none
    | _ => none

/-- Modelled from the spec: parse a whole sequence, raising
`InvalidTagSequence(orig)` on the first tag outside the scheme's
alphabet. -/
def parseTags (alphabet : List Char) (orig : List String) :
    List String → Except PyErr (List (Option (Char × String)))
  | [] => .ok []
  | t :: rest =>
    match parseTag alphabet t with
    | none => .error (.invalidTagSequence orig)
    | some p =>
      match parseTags alphabet orig rest with
      | .error e => .error e
      | .ok ps => .ok (p :: ps)

/-- The scan of `fix_bio`, modelled from the spec: "promote any
orphan/mismatched `I-<l>` to `B-<l>`, splitting the run"; `prev` is the
label of the directly preceding output tag when that tag is labeled. -/
def fixBioGo (prev : Option String) : List String → List String
  | [] => []
  | t :: rest =>
    if t = "O" then "O" :: fixBioGo none rest
    else if strHead t = 'B' then t :: fixBioGo (some (strAfterDash t)) rest
    else if prev = some (strAfterDash t) then t :: fixBioGo prev rest
    else ("B-" ++ strAfterDash t) :: fixBioGo (some (strAfterDash t)) rest

/-- Modelled from the spec: `fix_bio(tag_sequence)` — IOB2 repair. -/
def fix_bio (tag_sequence : List String) : Except PyErr (List String) :=
  match parseTags ['B', 'I'] tag_sequence tag_sequence with
  | .error e => .error e
  | .ok _ => .ok (fixBioGo none tag_sequence)

/-- A repaired BIOUL group of `n` same-label positions: a single
position is recoded `U`, a longer one `B I* L` ("every tag keeps its
original label and original position; only the B/I/U/L role letters are
corrected"). -/
def recodeBioulGroup (l : String) (n : Nat) : List String :=
  if n = 1 then ["U-" ++ l]
  else ("B-" ++ l) :: (List.replicate (n - 2) ("I-" ++ l) ++ [("L-" ++ l)])

/-- The scan of `fix_bioul`, modelled from the spec: stretches of
same-label tags are gathered into one span-run and recoded by their
length ("every tag keeps its original label and original position; only
the B/I/U/L role letters are corrected and runs are split as needed").
`pending` is the label, length and openness of the current stretch: an
`O` or a label change always ends it; a same-label `L` always joins it
(a dangling `L` closes the run before it); a same-label `B`, `I` or `U`
joins it only while it is still open (not yet terminated by an `L`/`U`),
so runs already closed are not re-opened. -/
def fixBioulGo (pending : Option (String × Nat × Bool)) :
    List (Option (Char × String)) → List String
  | [] =>
    match pending with
    | none => []
    | some (l, n, _) => recodeBioulGroup l n
  | none :: rest =>
    match pending with
    | none => "O" :: fixBioulGo none rest
    | some (l, n, _) => recodeBioulGroup l n ++ ("O" :: fixBioulGo none rest)
  | some (r', l') :: rest =>
    match pending with
    | none => fixBioulGo (some (l', 1, r' = 'B' ∨ r' = 'I')) rest
    | some (l, n, op) =>
      if l' = l ∧ (r' = 'L' ∨ op) then
        fixBioulGo (some (l, n + 1, r' = 'B' ∨ r' = 'I')) rest
      else recodeBioulGroup l n ++ fixBioulGo (some (l', 1, r' = 'B' ∨ r' = 'I')) rest

/-- Modelled from the spec: `fix_bioul(tag_sequence)` — BIOUL repair. -/
def fix_bioul (tag_sequence : List String) : Except PyErr (List String) :=
  match parseTags ['B', 'I', 'U', 'L'] tag_sequence tag_sequence with
  | .error e => .error e
  | .ok parsed => .ok (fixBioulGo none parsed)

/-- A repaired BOUL group of `n` positions: a single position becomes
`U`, a longer extent `B`, interior `O`s, `L`. -/
def recodeBoulGroup (l : String) (n : Nat) : List String :=
  if n = 1 then ["U-" ++ l]
  else ("B-" ++ l) :: (List.replicate (n - 2) "O" ++ [("L-" ++ l)])

/-- The scan of `fix_boul`, modelled from the spec: "mirrors BIOUL's
logic but tolerates `O` as a legitimate inside-marker rather than
treating it as always breaking the run, except when it is genuinely
outside any span".  The open stretch is `(label, role of its last tag,
extent so far, O-gap after its last tag)`: same-label tags extend the
stretch across the gap; an open stretch (last role `B`) absorbs its
trailing gap; a gap before a closing `L` of a new label belongs to that
`L`'s span; any other gap is outside. -/
def fixBoulGo (pending : Option (String × Char × Nat × Nat)) :
    List (Option (Char × String)) → List String
  | [] =>
    match pending with
    | none => []
    | some (l, r, n, g) =>
      if r = 'B' then recodeBoulGroup l (n + g)
      else recodeBoulGroup l n ++ List.replicate g "O"
  | none :: rest =>
    match pending with
    | none => "O" :: fixBoulGo none rest
    | some (l, r, n, g) => fixBoulGo (some (l, r, n, g + 1)) rest
  | some (r', l') :: rest =>
    match pending with
    | none => fixBoulGo (some (l', r', 1, 0)) rest
    | some (l, r, n, g) =>
      if l' = l ∧ (r' = 'L' ∨ r = 'B') then
        fixBoulGo (some (l, r', n + g + 1, 0)) rest
      else if r = 'B' then
        recodeBoulGroup l (n + g) ++ fixBoulGo (some (l', r', 1, 0)) rest
      else if r' = 'L' then
        recodeBoulGroup l n ++ fixBoulGo (some (l', r', g + 1, 0)) rest
      else
        recodeBoulGroup l n ++ (List.replicate g "O" ++ fixBoulGo (some (l', r', 1, 0)) rest)

/-- Modelled from the spec: `fix_boul(tag_sequence)` — BOUL repair. -/
def fix_boul (tag_sequence : List String) : Except PyErr (List String) :=
  match parseTags ['B', 'U', 'L'] tag_sequence tag_sequence with
  | .error e => .error e
  | .ok parsed => .ok (fixBoulGo none parsed)

/-- The scan of `remove_bioul`, modelled from the spec, as a state
machine: `run` holds the label of the open `B` run and the buffer of
its original tags.  `U` tags and complete `B-<l> I-<l>* L-<l>` runs are
kept verbatim; a run "failing the grammar is replaced entirely with `O`
at all its positions, even valid prefixes within it" — on a breaking
tag the buffered run and the breaking tag are all overwritten with
`O`, and a run still open at the end of the sequence is erased too;
orphan `I`/`L` tags are erased. -/
def removeBioulGo (run : Option (String × List String)) : List String → List String
  | [] =>
    match run with
    | none => []
    | some (_, buf) => List.replicate buf.length "O"
  | t :: rest =>
    match run with
    | some (l, buf) =>
      if t = "I-" ++ l then removeBioulGo (some (l, buf ++ [t])) rest
      else if t = "L-" ++ l then buf ++ (t :: removeBioulGo none rest)
      else List.replicate (buf.length + 1) "O" ++ removeBioulGo none rest
    | none =>
      if t = "O" then "O" :: removeBioulGo none rest
      else if strHead t = 'U' then t :: removeBioulGo none rest
      else if strHead t = 'B' then removeBioulGo (some (strAfterDash t, [t])) rest
      else "O" :: removeBioulGo none rest

/-- Modelled from the spec: `remove_bioul(tag_sequence)` — BIOUL removal. -/
def remove_bioul (tag_sequence : List String) : Except PyErr (List String) :=
  match parseTags ['B', 'I', 'U', 'L'] tag_sequence tag_sequence with
  | .error e => .error e
  | .ok _ => .ok (removeBioulGo none tag_sequence)

/-- The scan of `remove_boul`, modelled from the spec: like
`removeBioulGo` with the plain `O` tag as the legitimate inside-marker
of a `B-<l> O* L-<l>` run. -/
def removeBoulGo (run : Option (String × List String)) : List String → List String
  | [] =>
    match run with
    | none => []
    | some (_, buf) => List.replicate buf.length "O"
  | t :: rest =>
    match run with
    | some (l, buf) =>
      if t = "O" then removeBoulGo (some (l, buf ++ [t])) rest
      else if t = "L-" ++ l then buf ++ (t :: removeBoulGo none rest)
      else List.replicate (buf.length + 1) "O" ++ removeBoulGo none rest
    | none =>
      if t = "O" then "O" :: removeBoulGo none rest
      else if strHead t = 'U' then t :: removeBoulGo none rest
      else if strHead t = 'B' then removeBoulGo (some (strAfterDash t, [t])) rest
      else "O" :: removeBoulGo none rest

/-- Modelled from the spec: `remove_boul(tag_sequence)` — BOUL removal. -/
def remove_boul (tag_sequence : List String) : Except PyErr (List String) :=
  match parseTags ['B', 'U', 'L'] tag_sequence tag_sequence with
  | .error e => .error e
  | .ok _ => .ok (removeBoulGo none tag_sequence)

/-- The scan of `remove_bio`, modelled from the spec: `prev` is the
label of the preceding kept `B`/`I` tag; an `I` "without a valid
preceding `B`/`I` (and everything from that point through the rest of
its otherwise-contiguous `I` run) is overwritten to `O`" — `zeroing`
is set while that contiguous `I` run is being erased. -/
def removeBioGo (zeroing : Bool) (prev : Option String) : List String → List String
  | [] => []
  | t :: rest =>
    if zeroing ∧ strHead t = 'I' then "O" :: removeBioGo true none rest
    else if t = "O" then "O" :: removeBioGo false none rest
    else if strHead t = 'B' then t :: removeBioGo false (some (strAfterDash t)) rest
    else if prev = some (strAfterDash t) then t :: removeBioGo false prev rest
    else "O" :: removeBioGo true none rest

/-- Modelled from the spec: `remove_bio(tag_sequence)` — IOB2 removal. -/
def remove_bio (tag_sequence : List String) : Except PyErr (List String) :=
  match parseTags ['B', 'I'] tag_sequence tag_sequence with
  | .error e => .error e
  | .ok _ => .ok (removeBioGo false none tag_sequence)

/-- Modelled from the spec: `fix_ill_formed_tag_sequence(tag_sequence,
coding_scheme)` — dispatch repair by scheme name; a name outside
{IOB2, BIOUL, BOUL} signals the unknown-scheme error. -/
def fix_ill_formed_tag_sequence (tag_sequence : List String)
    (coding_scheme : String) : Except PyErr (List String) :=
  if coding_scheme = "IOB2" then fix_bio tag_sequence
  else if coding_scheme = "BIOUL" then fix_bioul tag_sequence
  else if coding_scheme = "BOUL" then fix_boul tag_sequence
  else .error (.valueError ("Unknown Coding scheme " ++ coding_scheme ++ "."))

/-- Modelled from the spec: `remove_ill_formed_tag_sequence(tag_sequence,
coding_scheme)` — dispatch removal by scheme name. -/
def remove_ill_formed_tag_sequence (tag_sequence : List String)
    (coding_scheme : String) : Except PyErr (List String) :=
  if coding_scheme = "IOB2" then remove_bio tag_sequence
  else if coding_scheme = "BIOUL" then remove_bioul tag_sequence
  else if coding_scheme = "BOUL" then remove_boul tag_sequence
  else .error (.valueError ("Unknown Coding scheme " ++ coding_scheme ++ "."))

/-- Modelled from the spec: `fix_encoding(tags, encoding)` as called by
`token_spans_to_tag_sequence` — the repair dispatcher. -/
def fix_encoding (tags : List String) (encoding : String) : Except PyErr (List String) :=
  fix_ill_formed_tag_sequence tags encoding

/-- Modelled from the spec: `remove_encoding(tags, encoding)` as called
by `token_spans_to_tag_sequence` — the removal dispatcher. -/
def remove_encoding (tags : List String) (encoding : String) : Except PyErr (List String) :=
  remove_ill_formed_tag_sequence tags encoding

/-! ## `token_spans_to_tag_sequence` (encoding.py lines 227-264)

Python list slicing and assignment (for non-negative indices, the only
ones the embedded callers produce: `offset` is kept as a natural number
and `start - offset` is the truncated subtraction) is embedded by
`pySlice` / `pySetItem` / `pySliceSet`. -/

/-- Python `l[a:b]` for non-negative bounds: indices `[min a len, min b len)`. -/
def pySlice (l : List String) (a b : Nat) : List String :=
  (l.take (min b l.length)).drop (min a l.length)

/-- Python `l[i] = v` for a non-negative index: `IndexError` out of range. -/
def pySetItem (l : List String) (i : Nat) (v : String) : Except PyErr (List String) :=
  if i < l.length then .ok (l.set i v) else .error .indexError

/-- Python slice assignment `l[a:b] = new` for non-negative bounds:
splice `new` in place of the slice region. -/
def pySliceSet (l : List String) (a b : Nat) (new : List String) : List String :=
  l.take (min a l.length) ++ new ++ l.drop (max (min a l.length) (min b l.length))

/-- Python `sorted(labeled_spans, key=lambda span_annot: span_annot[1][0])`
is a stable sort by span start; embedded as a stable insertion sort. -/
def insertSpanByStart (x : TypedStringSpan) : List TypedStringSpan → List TypedStringSpan
  | [] => [x]
  | y :: rest => if x.2.1 ≤ y.2.1 then x :: y :: rest else y :: insertSpanByStart x rest

/-- Stable sort of labeled spans by start index. -/
def sortSpansByStart : List TypedStringSpan → List TypedStringSpan
  | [] => []
  | x :: rest => insertSpanByStart x (sortSpansByStart rest)

/-- The placement loop of `token_spans_to_tag_sequence`: for each span
(already sorted), check `tags[_start:_end]` is all `"O"` (the overlap
`assert`), then write `B-<label>` at `_start` and `I-<label>` over
`tags[_start+1:_end]`. -/
def placeSpans (offset : Nat) : List TypedStringSpan → List String → Except PyErr (List String)
  | [], tags => .ok tags
  | (label, start, end_) :: rest, tags =>
    let s := start - offset
    let e := end_ - offset
    let previous_tags := pySlice tags s e
    if previous_tags = List.replicate previous_tags.length "O" then
      match pySetItem tags s ("B-" ++ label) with
      | .error err => .error err
      | .ok tags1 =>
        placeSpans offset rest
          (pySliceSet tags1 (s + 1) e (List.replicate (previous_tags.length - 1) ("I-" ++ label)))
    else .error .assertionError

/-- `token_spans_to_tag_sequence(labeled_spans, base_sequence_length,
coding_scheme, offset, include_ill_formed)` (encoding.py lines 227-264). -/
def token_spans_to_tag_sequence (labeled_spans : List TypedStringSpan)
    (base_sequence_length : Nat) (coding_scheme : String) (offset : Nat)
    (include_ill_formed : Bool) : Except PyErr (List String) :=
  match placeSpans offset (sortSpansByStart labeled_spans)
      (List.replicate base_sequence_length "O") with
  | .error e => .error e
  | .ok tags =>
    match (if include_ill_formed then fix_encoding tags "IOB2"
           else remove_encoding tags "IOB2") with
    | .error e => .error e
    | .ok tags2 =>
      if coding_scheme = "BIOUL" then to_bioul tags2 "IOB2"
      else if coding_scheme = "BOUL" then to_boul tags2 "IOB2"
      else if coding_scheme = "IOB2" then .ok tags2
      else .error (.valueError ("Unknown Coding scheme " ++ coding_scheme ++ "."))

/-- `tag_sequence_to_token_spans(tag_sequence, coding_scheme,
classes_to_ignore, include_ill_formed)` (encoding.py lines 267-296).
Note that the `IOB2` branch of the source passes the *raw*
`tag_sequence` to `iob2_tags_to_spans`, not `new_tag_sequence`. -/
def tag_sequence_to_token_spans (tag_sequence : List String)
    (coding_scheme : String) (classes_to_ignore : List String)
    (include_ill_formed : Bool) : Except PyErr (List TypedStringSpan) :=
  match (if include_ill_formed then
           fix_ill_formed_tag_sequence tag_sequence coding_scheme
         else remove_ill_formed_tag_sequence tag_sequence coding_scheme) with
  | .error e => .error e
  | .ok new_tag_sequence =>
    if coding_scheme = "BIOUL" then
      bioul_tags_to_spans new_tag_sequence classes_to_ignore
    else if coding_scheme = "BOUL" then
      boul_tags_to_spans new_tag_sequence classes_to_ignore
    else if coding_scheme = "IOB2" then
      .ok (iob2_tags_to_spans tag_sequence classes_to_ignore)
    else .error (.valueError ("Unknown Coding scheme " ++ coding_scheme ++ "."))

/-! ## Helper lemmas about the embedded string operations -/

/-- The tag `<r>-` for a role letter `r`. -/
def roleDash (r : Char) : String := ⟨[r, '-']⟩

/-! ## Grammar checkers and specification predicates -/

/-- A tag has the shape `<r>-<label>` with a non-empty label. -/
def wfTagShape (r : Char) (t : String) : Bool :=
  t = roleDash r ++ strAfterDash t ∧ strAfterDash t ≠ ""

mutual

/-- Bool checker of the well-formedness grammar stated by claim C1:
every position is `"O"`, a unit tag `U-<label>`, or part of a run
`B-<label> I-<label>* L-<label>` with the same non-empty label
throughout. -/
def wfBioul : List String → Bool
  | [] => true
  | t :: rest =>
    if t = "O" then wfBioul rest
    else if wfTagShape 'U' t then wfBioul rest
    else if wfTagShape 'B' t then wfBioulRun (strAfterDash t) rest
    else false

/-- Checker for the remainder of a `B-<l>` run: `I-<l>`s and the closing `L-<l>`. -/
def wfBioulRun (l : String) : List String → Bool
  | [] => false
  | t :: rest =>
    if t = roleDash 'I' ++ l then wfBioulRun l rest
    else if t = roleDash 'L' ++ l then wfBioul rest
    else false

end

/-- Pointwise non-introduction (claim C6): the output has the same
length as the input and, at every position, either exactly the input's
tag or `"O"`. -/
def PointwiseRemoval (out inp : List String) : Prop :=
  out.length = inp.length ∧ ∀ i : Nat, out[i]? = inp[i]? ∨ out[i]? = some "O"

/-- Bool checker of the well-formed IOB2 grammar (claims C5/C6): every
position is `"O"`, a `B-<label>`, or an `I-<label>` directly preceded by
a `B`/`I` of the same label (`prev`). -/
def wfBio (prev : Option String) : List String → Bool
  | [] => true
  | t :: rest =>
    if t = "O" then wfBio none rest
    else if wfTagShape 'B' t then wfBio (some (strAfterDash t)) rest
    else if wfTagShape 'I' t ∧ prev = some (strAfterDash t) then wfBio prev rest
    else false

mutual

/-- Bool checker of the well-formed BOUL grammar (claims C5/C6): every
position is `"O"`, a unit `U-<label>`, or part of a run
`B-<label> O* L-<label>` with the same non-empty label. -/
def wfBoul : List String → Bool
  | [] => true
  | t :: rest =>
    if t = "O" then wfBoul rest
    else if wfTagShape 'U' t then wfBoul rest
    else if wfTagShape 'B' t then wfBoulRun (strAfterDash t) rest
    else false

/-- Checker for the remainder of a BOUL `B-<l>` run: interior `O`s and
the closing `L-<l>`. -/
def wfBoulRun (l : String) : List String → Bool
  | [] => false
  | t :: rest =>
    if t = "O" then wfBoulRun l rest
    else if t = roleDash 'L' ++ l then wfBoul rest
    else false

end

/-- The label carried by a tag: `none` for the outside tag `"O"`,
otherwise the part after the first hyphen. -/
def tagLabel (t : String) : Option String :=
  if t = "O" then none else some (strAfterDash t)

/-- The labels a pending `fixBioulGo` group will contribute. -/
def pendingBioulLabels : Option (String × Nat × Bool) → List (Option String)
  | none => []
  | some (l, n, _) => List.replicate n (some l)

/-- The well-formedness of a pending `fixBioulGo` group: non-empty. -/
def pendingBioulWF : Option (String × Nat × Bool) → Prop
  | none => True
  | some (_, n, _) => 1 ≤ n

/-- The labels a pending `fixBoulGo` group will contribute after
re-expansion by `boul_to_bioul`: `n` positions of the group's label,
then the trailing gap of `g` outside positions. -/
def pendingBoulLabels : Option (String × Char × Nat × Nat) → List (Option String)
  | none => []
  | some (l, _, n, g) => List.replicate n (some l) ++ List.replicate g none

/-- The well-formedness of a pending `fixBoulGo` group: non-empty. -/
def pendingBoulWF : Option (String × Char × Nat × Nat) → Prop
  | none => True
  | some (_, _, n, _) => 1 ≤ n

/-- The length a pending `fixBoulGo` group will occupy. -/
def pendingBoulLen : Option (String × Char × Nat × Nat) → Nat
  | none => 0
  | some (_, _, n, g) => n + g

/-- Label domination (claim C5, BOUL part): the output labels cover the
input labels — same length, and wherever the input carries a label the
output carries the same label. -/
def LabelsDominate (out inp : List (Option String)) : Prop :=
  out.length = inp.length
  ∧ ∀ (i : Nat) (l : String), inp[i]? = some (some l) → out[i]? = some (some l)

/-! ## Validation of the embedded models against the repository test suite
(test_ill_formed.py and test_encoding.py): each example reproduces one
assertion of those tests by kernel evaluation. -/

example : fix_boul ["O","B-background_claim","O","O","O"] = .ok ["O","B-background_claim","O","O","L-background_claim"] := by decide
example : fix_boul ["O","B-background_claim","O","U-background_claim","L-background_claim","O"] = .ok ["O","B-background_claim","O","O","L-background_claim","O"] := by decide
example : fix_boul ["B-background_claim","O","U-data","L-background_claim","O"] = .ok ["B-background_claim","L-background_claim","U-data","U-background_claim","O"] := by decide
example : fix_boul ["U-data","O","L-background_claim"] = .ok ["U-data","B-background_claim","L-background_claim"] := by decide
example : fix_boul ["U-background_claim","O","L-background_claim"] = .ok ["B-background_claim","O","L-background_claim"] := by decide
example : fix_boul ["U-data","O"] = .ok ["U-data","O"] := by decide
example : fix_boul ["B-data","O","L-background_claim"] = .ok ["B-data","L-data","U-background_claim"] := by decide
example : fix_boul ["O","O","L-background_claim"] = .ok ["O","O","U-background_claim"] := by decide
example : fix_boul ["L-background_claim","O","O"] = .ok ["U-background_claim","O","O"] := by decide
example : fix_boul ["L-background_claim","O","L-background_claim"] = .ok ["B-background_claim","O","L-background_claim"] := by decide
example : fix_boul ["B-background_claim","L-background_claim","O","L-background_claim"] = .ok ["B-background_claim","O","O","L-background_claim"] := by decide
example : fix_boul ["L-data","O","L-background_claim"] = .ok ["U-data","B-background_claim","L-background_claim"] := by decide
example : fix_boul ["B-data","L-data","O","L-background_claim"] = .ok ["B-data","L-data","B-background_claim","L-background_claim"] := by decide
example : fix_bioul ["B-background_claim","I-background_claim","I-background_claim","O"] = .ok ["B-background_claim","I-background_claim","L-background_claim","O"] := by decide
example : fix_bioul ["B-background_claim","I-background_claim","U-background_claim","L-background_claim","O"] = .ok ["B-background_claim","I-background_claim","I-background_claim","L-background_claim","O"] := by decide
example : fix_bioul ["B-background_claim","I-background_claim","U-data","L-background_claim","O"] = .ok ["B-background_claim","L-background_claim","U-data","U-background_claim","O"] := by decide
example : fix_bioul ["O","B-background_claim","O","I-background_claim","L-background_claim"] = .ok ["O","U-background_claim","O","B-background_claim","L-background_claim"] := by decide
example : fix_bioul ["O","I-background_claim","I-background_claim","I-background_claim","L-background_claim"] = .ok ["O","B-background_claim","I-background_claim","I-background_claim","L-background_claim"] := by decide
example : fix_bioul ["O","O","O","O","L-background_claim"] = .ok ["O","O","O","O","U-background_claim"] := by decide
example : fix_bioul ["B-data","I-data","L-background_claim"] = .ok ["B-data","L-data","U-background_claim"] := by decide
example : fix_bioul ["U-data","O"] = .ok ["U-data","O"] := by decide
example : fix_bioul ["U-data","O","L-background_claim"] = .ok ["U-data","O","U-background_claim"] := by decide
example : fix_bioul ["U-background_claim","L-background_claim"] = .ok ["B-background_claim","L-background_claim"] := by decide
example : fix_bioul ["B-background_claim","L-background_claim","L-background_claim"] = .ok ["B-background_claim","I-background_claim","L-background_claim"] := by decide
example : fix_bio ["B-background_claim","B-background_claim","I-background_claim"] = .ok ["B-background_claim","B-background_claim","I-background_claim"] := by decide
example : fix_bio ["B-background_claim","B-data","I-background_claim"] = .ok ["B-background_claim","B-data","B-background_claim"] := by decide
example : fix_bio ["B-background_claim","B-data","I-data"] = .ok ["B-background_claim","B-data","I-data"] := by decide
example : fix_bio ["B-background_claim","I-background_claim","I-data","O"] = .ok ["B-background_claim","I-background_claim","B-data","O"] := by decide
example : fix_bio ["I-background_claim","I-background_claim","O"] = .ok ["B-background_claim","I-background_claim","O"] := by decide
example : fix_bio ["B-background_claim","I-background_claim","B-data"] = .ok ["B-background_claim","I-background_claim","B-data"] := by decide
example : fix_bio ["B-background_claim","I-background_claim","L-background_claim"] = .error (.invalidTagSequence ["B-background_claim","I-background_claim","L-background_claim"]) := by decide
example : fix_bioul ["U-background_claim","M-background_claim"] = .error (.invalidTagSequence ["U-background_claim","M-background_claim"]) := by decide
example : fix_boul ["U-background_claim","M-background_claim"] = .error (.invalidTagSequence ["U-background_claim","M-background_claim"]) := by decide
example : remove_bioul ["B-data","I-data","L-data","O","I-data","U-data","L-data"] = .ok ["B-data","I-data","L-data","O","O","U-data","O"] := by decide
example : remove_bioul ["B-background_claim","I-background_claim","I-background_claim","O"] = .ok ["O","O","O","O"] := by decide
example : remove_bioul ["B-background_claim","I-background_claim","U-background_claim","L-background_claim","O"] = .ok ["O","O","O","O","O"] := by decide
example : remove_bioul ["B-background_claim","I-background_claim","U-data","L-background_claim","O"] = .ok ["O","O","O","O","O"] := by decide
example : remove_bioul ["O","B-background_claim","O","I-background_claim","L-background_claim"] = .ok ["O","O","O","O","O"] := by decide
example : remove_bioul ["O","I-background_claim","I-background_claim","I-background_claim","L-background_claim"] = .ok ["O","O","O","O","O"] := by decide
example : remove_bioul ["O","O","O","O","L-background_claim"] = .ok ["O","O","O","O","O"] := by decide
example : remove_bioul ["B-data","I-data","L-background_claim"] = .ok ["O","O","O"] := by decide
example : remove_bioul ["U-data","O","L-background_claim"] = .ok ["U-data","O","O"] := by decide
example : remove_boul ["B-data","O","L-data","O","O","U-data"] = .ok ["B-data","O","L-data","O","O","U-data"] := by decide
example : remove_boul ["O","B-background_claim","O","O","O"] = .ok ["O","O","O","O","O"] := by decide
example : remove_boul ["O","B-background_claim","O","U-background_claim","L-background_claim","O"] = .ok ["O","O","O","O","O","O"] := by decide
example : remove_boul ["B-background_claim","O","U-data","L-background_claim","O"] = .ok ["O","O","O","O","O"] := by decide
example : remove_boul ["U-data","O","L-background_claim"] = .ok ["U-data","O","O"] := by decide
example : remove_boul ["U-background_claim","O","L-background_claim"] = .ok ["U-background_claim","O","O"] := by decide
example : remove_boul ["U-data","O"] = .ok ["U-data","O"] := by decide
example : remove_boul ["B-data","O","L-background_claim"] = .ok ["O","O","O"] := by decide
example : remove_boul ["O","O","L-background_claim"] = .ok ["O","O","O"] := by decide
example : remove_boul ["L-background_claim","O","O"] = .ok ["O","O","O"] := by decide
example : remove_boul ["L-background_claim","O","L-background_claim"] = .ok ["O","O","O"] := by decide
example : remove_boul ["L-data","O","L-background_claim"] = .ok ["O","O","O"] := by decide
example : remove_boul ["B-data","L-data","O","L-background_claim"] = .ok ["B-data","L-data","O","O"] := by decide
example : remove_bio ["B-data","B-data","I-data","O"] = .ok ["B-data","B-data","I-data","O"] := by decide
example : remove_bio ["B-background_claim","B-background_claim","I-background_claim"] = .ok ["B-background_claim","B-background_claim","I-background_claim"] := by decide
example : remove_bio ["B-background_claim","B-data","I-background_claim"] = .ok ["B-background_claim","B-data","O"] := by decide
example : remove_bio ["B-background_claim","B-data","I-data"] = .ok ["B-background_claim","B-data","I-data"] := by decide
example : remove_bio ["B-background_claim","I-background_claim","I-data","O"] = .ok ["B-background_claim","I-background_claim","O","O"] := by decide
example : remove_bio ["I-background_claim","I-background_claim","O"] = .ok ["O","O","O"] := by decide
-- encoder tests
example : token_spans_to_tag_sequence [("person",(1,2)),("city",(4,5)),("person",(11,12))] 13 "IOB2" 0 true = .ok ["O","B-person","O","O","B-city","O","O","O","O","O","O","B-person","O"] := by decide
example : token_spans_to_tag_sequence [("person",(1,2)),("city",(4,5)),("person",(11,12))] 13 "BIOUL" 0 true = .ok ["O","U-person","O","O","U-city","O","O","O","O","O","O","U-person","O"] := by decide
example : token_spans_to_tag_sequence [("person",(1,2)),("city",(4,5)),("person",(11,12))] 13 "BOUL" 0 true = .ok ["O","U-person","O","O","U-city","O","O","O","O","O","O","U-person","O"] := by decide
example : token_spans_to_tag_sequence [("city",(1,2)),("person",(7,11))] 19 "IOB2" 0 true = .ok ["O","B-city","O","O","O","O","O","B-person","I-person","I-person","I-person","O","O","O","O","O","O","O","O"] := by decide
example : token_spans_to_tag_sequence [("city",(1,2)),("person",(7,11))] 19 "BIOUL" 0 true = .ok ["O","U-city","O","O","O","O","O","B-person","I-person","I-person","L-person","O","O","O","O","O","O","O","O"] := by decide
example : token_spans_to_tag_sequence [("person",(1,2))] 13 "None" 0 true = .error (.valueError "Unknown Coding scheme None.") := by decide
-- decoder tests, repair mode
example : tag_sequence_to_token_spans ["O","B-city","O","B-city","U-city"] "BIOUL" [] true = .ok [("city",1,1),("city",3,4)] := by decide
example : tag_sequence_to_token_spans ["B-city","I-city","I-person","L-person"] "BIOUL" [] true = .ok [("city",0,1),("person",2,3)] := by decide
example : tag_sequence_to_token_spans ["B-city","I-city","L-person"] "BIOUL" [] true = .ok [("city",0,1),("person",2,2)] := by decide
example : tag_sequence_to_token_spans ["B-city","I-city","B-person"] "BIOUL" [] true = .ok [("city",0,1),("person",2,2)] := by decide
example : tag_sequence_to_token_spans ["B-city","I-city","B-city"] "BIOUL" [] true = .ok [("city",0,2)] := by decide
example : tag_sequence_to_token_spans ["L-city","I-city","L-person"] "BIOUL" [] true = .ok [("city",0,0),("city",1,1),("person",2,2)] := by decide
example : tag_sequence_to_token_spans ["B-city","I-city","I-city"] "BIOUL" [] true = .ok [("city",0,2)] := by decide
example : tag_sequence_to_token_spans ["B-city","O","U-city"] "BIOUL" [] true = .ok [("city",0,0),("city",2,2)] := by decide
example : tag_sequence_to_token_spans ["O","B-city","O","B-city","U-city"] "BOUL" [] true = .ok [("city",1,4)] := by decide
example : tag_sequence_to_token_spans ["B-city","O","O","L-person"] "BOUL" [] true = .ok [("city",0,2),("person",3,3)] := by decide
example : tag_sequence_to_token_spans ["L-city","O","L-person"] "BOUL" [] true = .ok [("city",0,0),("person",1,2)] := by decide
example : tag_sequence_to_token_spans ["B-city","O","O"] "BOUL" [] true = .ok [("city",0,2)] := by decide
example : tag_sequence_to_token_spans ["B-city","O","U-city"] "BOUL" [] true = .ok [("city",0,2)] := by decide
example : tag_sequence_to_token_spans ["O","B-city","O","B-city","I-city"] "IOB2" [] true = .ok [("city",1,1),("city",3,4)] := by decide
-- decoder tests, removal mode
example : tag_sequence_to_token_spans ["O","B-city","O","B-city","L-city"] "BIOUL" [] false = .ok [("city",3,4)] := by decide
example : tag_sequence_to_token_spans ["B-city","L-city","I-person","L-person"] "BIOUL" [] false = .ok [("city",0,1)] := by decide
example : tag_sequence_to_token_spans ["B-city","I-city","L-city","B-person","U-person","L-person"] "BIOUL" [] false = .ok [("city",0,2)] := by decide
example : tag_sequence_to_token_spans ["B-city","I-city","L-city","I-person","U-person","L-person"] "BIOUL" [] false = .ok [("city",0,2),("person",4,4)] := by decide
example : tag_sequence_to_token_spans ["B-city","I-city","B-city"] "BIOUL" [] false = .ok [] := by decide
example : tag_sequence_to_token_spans ["O","B-city","O","L-city","U-city"] "BOUL" [] false = .ok [("city",1,3),("city",4,4)] := by decide
example : tag_sequence_to_token_spans ["B-city","O","L-city","L-person"] "BOUL" [] false = .ok [("city",0,2)] := by decide
example : tag_sequence_to_token_spans ["B-city","O","L-city","B-person","U-city","L-person"] "BOUL" [] false = .ok [("city",0,2)] := by decide
example : tag_sequence_to_token_spans ["O","B-city","O","B-city","I-city"] "IOB2" [] false = .ok [("city",1,1),("city",3,4)] := by decide
-- recoders
example : bioul_to_boul ["O","B-background_claim","I-background_claim","I-background_claim","L-background_claim","O","U-data","O","O"] = ["O","B-background_claim","O","O","L-background_claim","O","U-data","O","O"] := by decide
example : boul_to_bioul ["O","B-background_claim","O","O","L-background_claim","O","U-data","O","O"] = .ok ["O","B-background_claim","I-background_claim","I-background_claim","L-background_claim","O","U-data","O","O"] := by decide

theorem data_roleDash_append (r : Char) (l : String) :
    (roleDash r ++ l).data = r :: '-' :: l.data := by
  rw [String.data_append]
  rfl

theorem strHead_roleDash (r : Char) (l : String) : strHead (roleDash r ++ l) = r := by
  rw [strHead, data_roleDash_append]
  rfl

theorem startsWithIDash_roleDash (r : Char) (l : String) (h : r ≠ 'I') :
    startsWithIDash (roleDash r ++ l) = false := by
  unfold startsWithIDash
  rw [data_roleDash_append]
  split
  · next heq => injection heq with h1 _; exact absurd h1 h
  · rfl

theorem startsWithIDash_I (l : String) : startsWithIDash (roleDash 'I' ++ l) = true := by
  unfold startsWithIDash
  rw [data_roleDash_append]
  rfl

theorem strDrop2_roleDash (r : Char) (l : String) : strDrop2 (roleDash r ++ l) = l := by
  rw [strDrop2, data_roleDash_append]
  rfl

theorem strAfterDash_roleDash (r : Char) (l : String) (h : r ≠ '-') :
    strAfterDash (roleDash r ++ l) = l := by
  rw [strAfterDash, data_roleDash_append]
  rw [List.dropWhile_cons_of_pos (by simpa using h)]
  rw [List.dropWhile_cons_of_neg (by simp)]
  rfl

theorem roleDash_ne_O (r : Char) (l : String) : (roleDash r ++ l) ≠ "O" := by
  intro h
  have h2 : r :: '-' :: l.data = ['O'] := by
    have := congrArg String.data h
    rwa [data_roleDash_append] at this
  simp at h2

/-! ## Claim C1: the BIOUL -> BOUL -> BIOUL round trip -/

theorem wfTagShape_iff {r : Char} {t : String} :
    wfTagShape r t = true ↔ (t = roleDash r ++ strAfterDash t ∧ strAfterDash t ≠ "") := by
  simp [wfTagShape]

theorem roundtrip_aux (s : List String) :
    (wfBioul s = true → boulToBioulGo none (bioul_to_boul s) = .ok s)
    ∧ (∀ l : String, wfBioulRun l s = true →
        boulToBioulGo (some l) (bioul_to_boul s) = .ok s) := by
  induction s with
  | nil =>
    refine ⟨fun _ => rfl, fun l h => ?_⟩
    simp [wfBioulRun] at h
  | cons t rest ih =>
    have hmap : bioul_to_boul (t :: rest)
        = (if startsWithIDash t then "O" else t) :: bioul_to_boul rest := by
      simp [bioul_to_boul]
    constructor
    · intro h
      rw [wfBioul] at h
      by_cases hO : t = "O"
      · rw [if_pos hO] at h
        rw [hmap, hO]
        rw [show startsWithIDash "O" = false from rfl]
        rw [if_neg (by simp)]
        rw [boulToBioulGo]
        rw [show strHead "O" = 'O' from rfl]
        rw [if_neg (by decide), ih.1 h]
      · rw [if_neg hO] at h
        by_cases hU : wfTagShape 'U' t = true
        · rw [if_pos hU] at h
          obtain ⟨htU, -⟩ := wfTagShape_iff.1 hU
          rw [hmap]
          rw [htU, startsWithIDash_roleDash _ _ (by decide)]
          rw [if_neg (by simp)]
          rw [boulToBioulGo, strHead_roleDash]
          rw [if_neg (by decide), ih.1 h]
        · rw [if_neg hU] at h
          by_cases hB : wfTagShape 'B' t = true
          · rw [if_pos hB] at h
            obtain ⟨htB, -⟩ := wfTagShape_iff.1 hB
            rw [hmap]
            rw [htB, startsWithIDash_roleDash _ _ (by decide)]
            rw [if_neg (by simp)]
            rw [boulToBioulGo, strHead_roleDash]
            rw [if_pos rfl, strDrop2_roleDash]
            rw [ih.2 _ h]
          · rw [if_neg hB] at h
            cases h
    · intro l h
      rw [wfBioulRun] at h
      by_cases hI : t = roleDash 'I' ++ l
      · rw [if_pos hI] at h
        rw [hmap, hI, startsWithIDash_I]
        rw [if_pos rfl]
        rw [boulToBioulGo]
        rw [show strHead "O" = 'O' from rfl]
        rw [if_neg (by decide)]
        rw [ih.2 _ h]
        rfl
      · rw [if_neg hI] at h
        by_cases hL : t = roleDash 'L' ++ l
        · rw [if_pos hL] at h
          rw [hmap, hL, startsWithIDash_roleDash _ _ (by decide)]
          rw [if_neg (by simp)]
          rw [boulToBioulGo, strHead_roleDash]
          rw [if_pos rfl, ih.1 h]
        · rw [if_neg hL] at h
          cases h

/-- **C1** — For every well-formed BIOUL tag sequence `s` (each position
is `"O"`, a `U-<label>` tag, or part of a run `B-<label> I-<label>*
L-<label>` with the same non-empty label throughout, as checked by
`wfBioul`), `boul_to_bioul (bioul_to_boul s) = .ok s`: collapsing
interior `I` positions to `O` and reconstructing them from the `B`/`L`
boundaries returns exactly the original sequence. -/
theorem bioul_boul_roundtrip (s : List String) (h : wfBioul s = true) :
    boul_to_bioul (bioul_to_boul s) = .ok s :=
  (roundtrip_aux s).1 h

/-- Witness for C1 at a concrete well-formed BIOUL sequence. -/
theorem bioul_boul_roundtrip_witness :
    boul_to_bioul (bioul_to_boul ["B-x", "I-x", "I-x", "L-x", "O", "U-y", "B-x", "L-x"])
      = .ok ["B-x", "I-x", "I-x", "L-x", "O", "U-y", "B-x", "L-x"] :=
  bioul_boul_roundtrip _ (by decide)

/-- **C2** — The claim says `tag_sequence_to_token_spans` always extracts
spans from the normalized (repaired/removed) sequence, for IOB2 just as
for BIOUL/BOUL.  The code computes the normalized sequence but passes
the raw input to `iob2_tags_to_spans` in the IOB2 branch: on
`["B-city","I-city","I-person","I-person"]` it returns `("city",(0,3))`
under both policies, while extraction from the removed sequence
`["B-city","I-city","O","O"]` gives `("city",(0,1))` and extraction from
the repaired sequence `["B-city","I-city","B-person","I-person"]` gives
`("city",(0,1)),("person",(2,3))` — which is what the repository's own
tests (`test_encoding.py`, IOB2 cases) expect.  The code contradicts its
tests; the claim describes the intended behaviour. -/
theorem tag_sequence_to_token_spans_iob2_uses_raw_sequence :
    tag_sequence_to_token_spans ["B-city", "I-city", "I-person", "I-person"] "IOB2" [] false
        = .ok [("city", 0, 3)]
    ∧ remove_ill_formed_tag_sequence ["B-city", "I-city", "I-person", "I-person"] "IOB2"
        = .ok ["B-city", "I-city", "O", "O"]
    ∧ iob2_tags_to_spans ["B-city", "I-city", "O", "O"] [] = [("city", 0, 1)]
    ∧ tag_sequence_to_token_spans ["B-city", "I-city", "I-person", "I-person"] "IOB2" [] true
        = .ok [("city", 0, 3)]
    ∧ fix_ill_formed_tag_sequence ["B-city", "I-city", "I-person", "I-person"] "IOB2"
        = .ok ["B-city", "I-city", "B-person", "I-person"]
    ∧ iob2_tags_to_spans ["B-city", "I-city", "B-person", "I-person"] []
        = [("city", 0, 1), ("person", 2, 3)] := by
  decide

/-- **C3** (counterexample) — The claim says that under the lenient
policy (`include_ill_formed = true`) an overlapping span is silently
skipped and a tag sequence is still returned.  On the spans
`[("a",(0,2)), ("b",(1,3))]` with length 4, the placement `assert`
raises `AssertionError` instead; no sequence is returned. -/
theorem token_spans_overlap_counterexample :
    token_spans_to_tag_sequence [("a", 0, 2), ("b", 1, 3)] 4 "IOB2" 0 true
      = .error .assertionError := by
  decide

/-- **C4** (counterexample) — The claim says encoding
`[("person",(1,2)), ("city",(4,4))]` at length 7 in IOB2 yields
`["O","B-person","I-person","O","B-city","O","O"]` (inclusive-inclusive
bounds).  The code writes `I` tags only over `tags[start+1:end]`, so
token 2 stays `"O"`. -/
theorem token_spans_encode_counterexample :
    ¬ token_spans_to_tag_sequence [("person", 1, 2), ("city", 4, 4)] 7 "IOB2" 0 true
        = .ok ["O", "B-person", "I-person", "O", "B-city", "O", "O"] := by
  decide

/-- **C4** (amended) — Encoding `[("person",(1,2)), ("city",(4,4))]` at
length 7 in IOB2 returns `["O","B-person","O","O","B-city","O","O"]`:
the end bound is exclusive for the `I` continuation (a span `(s,e)`
yields `B` at `s` and `I` at `s+1..e-1`), and a point span `(4,4)`
still yields a lone `B` at 4.  This matches the repository's own
`test_spans_to_tag_sequence` expectations. -/
theorem token_spans_encode_amended :
    token_spans_to_tag_sequence [("person", 1, 2), ("city", 4, 4)] 7 "IOB2" 0 true
      = .ok ["O", "B-person", "O", "O", "B-city", "O", "O"] := by
  decide

/-- **C7** — BIOUL removal of the ill-formed sequence
`["B-x","I-x","I-x","O"]` (a run with no terminating `L`) yields
`["O","O","O","O"]`: the entire malformed run is erased at every
position it covered, including its otherwise-valid `B`/`I` prefix. -/
theorem remove_bioul_erases_unterminated_run :
    remove_bioul ["B-x", "I-x", "I-x", "O"] = .ok ["O", "O", "O", "O"] := by
  decide

/-- **C9** — The well-formedness precondition of the direct BIOUL/BOUL
walkers is load-bearing: on inputs whose `B` run is never closed by an
`L` before the end of the sequence, both `bioul_tags_to_spans` and
`boul_to_bioul` read the index equal to the sequence length and fail
with an index error (not the documented `InvalidTagSequence`), instead
of returning spans. -/
theorem bioul_walkers_unclosed_run_index_error :
    bioul_tags_to_spans ["B-x"] [] = .error .indexError
    ∧ bioul_tags_to_spans ["B-x", "I-x"] [] = .error .indexError
    ∧ boul_to_bioul ["B-x"] = .error .indexError
    ∧ boul_to_bioul ["B-x", "I-x"] = .error .indexError := by
  decide

theorem iob2Go_cons_I (pos : Nat) (run : Option (String × Nat)) (b : String)
    (ts : List String) :
    iob2Go pos run (("I-" ++ b) :: ts) = iob2Go (pos + 1) run ts := by
  have hI : strHead ("I-" ++ b) = 'I' :=
    strHead_roleDash 'I' b
  simp only [iob2Go, hI, if_true]

/-- **C10** — `iob2_tags_to_spans` never compares the label of an `I`
tag with the label of the run it continues: `["B-a","I-b","O"]`
extracts to the single span `("a",(0,1))` labeled with the `B` tag's
label, and in general a sequence starting `B-a, I-b` extracts exactly
as if the `I` tag carried the matching label `a` — for any labels, any
continuation and any ignore-list. -/
theorem iob2_ignores_I_tag_labels :
    iob2_tags_to_spans ["B-a", "I-b", "O"] [] = [("a", 0, 1)]
    ∧ ∀ (a b : String) (ts classes_to_ignore : List String),
        iob2_tags_to_spans (("B-" ++ a) :: ("I-" ++ b) :: ts) classes_to_ignore
          = iob2_tags_to_spans (("B-" ++ a) :: ("I-" ++ a) :: ts) classes_to_ignore := by
  constructor
  · decide
  · intro a b ts classes_to_ignore
    have hgo : ∀ c : String, iob2Go 0 none (("B-" ++ a) :: ("I-" ++ c) :: ts)
        = iob2Go 2 (some (strAfterDash ("B-" ++ a), 0)) ts := by
      intro c
      have hB : strHead ("B-" ++ a) = 'B' := strHead_roleDash 'B' a
      have hI : strHead ("I-" ++ c) = 'I' := strHead_roleDash 'I' c
      simp only [iob2Go, hB, hI, if_true]
      rfl
    rw [iob2_tags_to_spans, iob2_tags_to_spans, hgo a, hgo b]

/-- **C8** (counterexample) — The claim says the unknown-scheme error is
raised for any list of labeled spans, before any other failure.  With
overlapping spans and scheme `"XYZ"`, the placement `assert` fires
first: the call raises `AssertionError`, not the unknown-scheme
`ValueError`. -/
theorem unknown_scheme_counterexample :
    token_spans_to_tag_sequence [("a", 0, 2), ("b", 1, 3)] 4 "XYZ" 0 true
      = .error .assertionError
    ∧ ¬ token_spans_to_tag_sequence [("a", 0, 2), ("b", 1, 3)] 4 "XYZ" 0 true
        = .error (.valueError ("Unknown Coding scheme XYZ.")) := by
  decide

/-- **C8** (amended) — For every scheme name outside {IOB2, BIOUL,
BOUL}: the encoder `token_spans_to_tag_sequence` raises the
unknown-scheme `ValueError` whenever span placement and normalization
succeed (a placement failure preempts it), and the decoder
`tag_sequence_to_token_spans` raises it for every tag sequence,
ignore-list and policy. -/
theorem unknown_scheme_raises (scheme : String)
    (h1 : scheme ≠ "IOB2") (h2 : scheme ≠ "BIOUL") (h3 : scheme ≠ "BOUL") :
    (∀ (labeled_spans : List TypedStringSpan) (n offset : Nat) (iff_ : Bool)
       (tags tags2 : List String),
       placeSpans offset (sortSpansByStart labeled_spans) (List.replicate n "O") = .ok tags →
       (if iff_ then fix_encoding tags "IOB2" else remove_encoding tags "IOB2") = .ok tags2 →
       token_spans_to_tag_sequence labeled_spans n scheme offset iff_
         = .error (.valueError ("Unknown Coding scheme " ++ scheme ++ ".")))
    ∧ (∀ (tag_sequence classes_to_ignore : List String) (iff_ : Bool),
       tag_sequence_to_token_spans tag_sequence scheme classes_to_ignore iff_
         = .error (.valueError ("Unknown Coding scheme " ++ scheme ++ "."))) := by
  constructor
  · intro spans n offset iff_ tags tags2 hp hn
    rw [token_spans_to_tag_sequence, hp]
    dsimp only
    rw [hn]
    dsimp only
    rw [if_neg h2, if_neg h3, if_neg h1]
  · intro ts cti iff_
    have hfix : fix_ill_formed_tag_sequence ts scheme
        = .error (.valueError ("Unknown Coding scheme " ++ scheme ++ ".")) := by
      rw [fix_ill_formed_tag_sequence, if_neg h1, if_neg h2, if_neg h3]
    have hrem : remove_ill_formed_tag_sequence ts scheme
        = .error (.valueError ("Unknown Coding scheme " ++ scheme ++ ".")) := by
      rw [remove_ill_formed_tag_sequence, if_neg h1, if_neg h2, if_neg h3]
    rw [tag_sequence_to_token_spans]
    cases iff_ with
    | true =>
      rw [if_pos rfl, hfix]
    | false =>
      rw [if_neg (by simp), hrem]

/-- Witness for the amended C8 at scheme `"XYZ"`. -/
theorem unknown_scheme_raises_witness :
    token_spans_to_tag_sequence [("a", 0, 1)] 3 "XYZ" 0 true
      = .error (.valueError "Unknown Coding scheme XYZ.")
    ∧ tag_sequence_to_token_spans ["B-x"] "XYZ" [] false
      = .error (.valueError "Unknown Coding scheme XYZ.") := by
  constructor
  · exact (unknown_scheme_raises "XYZ" (by decide) (by decide) (by decide)).1
      [("a", 0, 1)] 3 0 true ["B-a", "O", "O"] ["B-a", "O", "O"] (by decide) (by decide)
  · exact (unknown_scheme_raises "XYZ" (by decide) (by decide) (by decide)).2 ["B-x"] [] false

theorem pySlice_replicate (n a b : Nat) (x : String) :
    pySlice (List.replicate n x) a b = List.replicate (min b n - min a n) x := by
  rw [pySlice, List.length_replicate, List.take_replicate, List.drop_replicate]
  congr 1
  omega

theorem replicate_self_check (k : Nat) (x : String) :
    List.replicate k x = List.replicate (List.replicate k x).length x := by
  rw [List.length_replicate]

/-- **C3** (amended) — Under every policy (`include_ill_formed` true or
false) and every scheme string, when a span's checked region
`[start, end)` contains a position already tagged by the earlier-placed
(sorted-by-start) span, `token_spans_to_tag_sequence` raises
`AssertionError` from the placement `assert`: the conflicting span is
not skipped and no tag sequence is returned.  Stated for two spans
`(a,(s1,e1))`, `(b,(s2,e2))` with `s1 <= s2` and position `s2` tagged
by the first span (`s2 < e1`) and checked for the second
(`s2 < e2`, `s2 < n`). -/
theorem token_spans_overlap_raises (a b scheme : String) (s1 e1 s2 e2 n : Nat) (iff_ : Bool)
    (h1 : s1 ≤ s2) (h2 : s2 < e1) (h3 : s2 < e2) (h4 : s2 < n) :
    token_spans_to_tag_sequence [(a, s1, e1), (b, s2, e2)] n scheme 0 iff_
      = .error .assertionError := by
  have hs1n : s1 < n := lt_of_le_of_lt h1 h4
  -- the stable sort keeps the two spans in order
  have hsort : sortSpansByStart [(a, s1, e1), (b, s2, e2)] = [(a, s1, e1), (b, s2, e2)] := by
    rw [sortSpansByStart, sortSpansByStart, sortSpansByStart, insertSpanByStart,
      insertSpanByStart]
    simp only [if_pos h1]
  -- placing the first span
  have hslice1 : pySlice (List.replicate n "O") s1 e1
      = List.replicate (min e1 n - s1) "O" := by
    rw [pySlice_replicate, Nat.min_eq_left (le_of_lt hs1n)]
  set tags1 := (List.replicate n "O").set s1 ("B-" ++ a) with htags1
  have hlen1 : tags1.length = n := by
    rw [htags1, List.length_set, List.length_replicate]
  have hset1 : pySetItem (List.replicate n "O") s1 ("B-" ++ a) = .ok tags1 := by
    rw [pySetItem, List.length_replicate, if_pos hs1n]
  set k := min e1 n - s1 with hk
  have hkpos : 1 ≤ k := by
    have : s1 + 1 ≤ min e1 n := by
      have he1 : s1 + 1 ≤ e1 := by omega
      have hn : s1 + 1 ≤ n := by omega
      omega
    omega
  set tags2 := pySliceSet tags1 (s1 + 1) e1 (List.replicate (k - 1) ("I-" ++ a)) with htags2
  have hmin1 : min (s1 + 1) tags1.length = s1 + 1 := by
    rw [hlen1]
    omega
  have hmine1 : min e1 tags1.length = min e1 n := by rw [hlen1]
  have hmax : max (min (s1 + 1) tags1.length) (min e1 tags1.length) = min e1 n := by
    rw [hmin1, hmine1]
    omega
  have htags2eq : tags2 = tags1.take (s1 + 1) ++ List.replicate (k - 1) ("I-" ++ a)
      ++ tags1.drop (min e1 n) := by
    rw [htags2, pySliceSet, hmax, hmin1]
  have hlen2 : tags2.length = n := by
    rw [htags2eq]
    simp only [List.length_append, List.length_take, List.length_replicate,
      List.length_drop, hlen1]
    omega
  -- the element of tags2 at position s2 is a B or I tag of span a
  have hget : tags2[s2]? = some ("B-" ++ a) ∨ tags2[s2]? = some ("I-" ++ a) := by
    rcases Nat.lt_or_ge s2 (s1 + 1) with hcase | hcase
    · -- s2 = s1: the B tag
      have hs2 : s2 = s1 := by omega
      left
      rw [htags2eq]
      rw [List.getElem?_append_left (by
        simp only [List.length_append, List.length_take, List.length_replicate, hlen1]
        omega)]
      rw [List.getElem?_append_left (by
        simp only [List.length_take, hlen1]
        omega)]
      rw [List.getElem?_take_of_lt (by omega)]
      rw [hs2, htags1, List.getElem?_set_self (by rw [List.length_replicate]; exact hs1n)]
    · -- s1 < s2 < min e1 n: an I tag
      right
      have hs2lt : s2 < min e1 n := by omega
      rw [htags2eq]
      rw [List.getElem?_append_left (by
        simp only [List.length_append, List.length_take, List.length_replicate, hlen1]
        omega)]
      rw [List.getElem?_append_right (by
        simp only [List.length_take, hlen1]
        omega)]
      simp only [List.length_take, hlen1, hmin1]
      rw [List.getElem?_replicate_of_lt (by omega)]
  -- hence the checked slice for the second span is not all-O
  have hslice2 : ¬ (pySlice tags2 s2 e2
      = List.replicate (pySlice tags2 s2 e2).length "O") := by
    intro hcontra
    have hhead : (pySlice tags2 s2 e2).head? = tags2[s2]? := by
      rw [pySlice, hlen2, Nat.min_eq_left (le_of_lt h4), List.head?_drop]
      rw [List.getElem?_take_of_lt (by omega)]
    rcases hget with hg | hg
    · rw [hg] at hhead
      rw [hcontra] at hhead
      rcases hrep : (pySlice tags2 s2 e2).length with _ | m
      · rw [hrep] at hhead
        simp at hhead
      · rw [hrep] at hhead
        simp only [List.replicate, List.head?_cons] at hhead
        have : ("B-" ++ a : String) = "O" := by
          injection hhead.symm
        exact roleDash_ne_O 'B' a this
    · rw [hg] at hhead
      rw [hcontra] at hhead
      rcases hrep : (pySlice tags2 s2 e2).length with _ | m
      · rw [hrep] at hhead
        simp at hhead
      · rw [hrep] at hhead
        simp only [List.replicate, List.head?_cons] at hhead
        have : ("I-" ++ a : String) = "O" := by
          injection hhead.symm
        exact roleDash_ne_O 'I' a this
  -- assemble
  rw [token_spans_to_tag_sequence, hsort]
  rw [placeSpans]
  simp only [Nat.sub_zero]
  rw [hslice1, hset1]
  rw [if_pos (by rw [List.length_replicate])]
  dsimp only
  rw [List.length_replicate]
  rw [placeSpans]
  simp only [Nat.sub_zero]
  rw [← htags2]
  rw [if_neg hslice2]

/-- Witness for the amended C3 at a concrete overlapping pair, under the
lenient policy. -/
theorem token_spans_overlap_raises_witness :
    token_spans_to_tag_sequence [("a", 0, 2), ("b", 1, 3)] 4 "BIOUL" 0 true
      = .error .assertionError :=
  token_spans_overlap_raises "a" "b" "BIOUL" 0 2 1 3 4 true (by decide) (by decide)
    (by decide) (by decide)

/-! ## Claim C6: removal only subtracts -/

theorem PointwiseRemoval.nil : PointwiseRemoval [] [] :=
  ⟨rfl, fun _ => Or.inl rfl⟩

theorem PointwiseRemoval.cons_eq {out inp : List String} (t : String)
    (h : PointwiseRemoval out inp) : PointwiseRemoval (t :: out) (t :: inp) := by
  refine ⟨by simp [h.1], fun i => ?_⟩
  cases i with
  | zero => exact Or.inl (by simp)
  | succ j => simpa using h.2 j

theorem PointwiseRemoval.cons_O {out inp : List String} (t : String)
    (h : PointwiseRemoval out inp) : PointwiseRemoval ("O" :: out) (t :: inp) := by
  refine ⟨by simp [h.1], fun i => ?_⟩
  cases i with
  | zero => exact Or.inr (by simp)
  | succ j => simpa using h.2 j

theorem PointwiseRemoval.append {o1 i1 o2 i2 : List String}
    (h1 : PointwiseRemoval o1 i1) (h2 : PointwiseRemoval o2 i2) :
    PointwiseRemoval (o1 ++ o2) (i1 ++ i2) := by
  refine ⟨by simp [h1.1, h2.1], fun i => ?_⟩
  rcases Nat.lt_or_ge i o1.length with hlt | hge
  · rw [List.getElem?_append_left hlt, List.getElem?_append_left (h1.1 ▸ hlt)]
    exact h1.2 i
  · rw [List.getElem?_append_right hge, List.getElem?_append_right (h1.1 ▸ hge), h1.1]
    exact h2.2 (i - i1.length)

theorem PointwiseRemoval.refl (xs : List String) : PointwiseRemoval xs xs := by
  induction xs with
  | nil => exact PointwiseRemoval.nil
  | cons t rest ih => exact ih.cons_eq t

theorem PointwiseRemoval.replicate_O {xs : List String} {n : Nat}
    (h : xs.length = n) : PointwiseRemoval (List.replicate n "O") xs := by
  induction xs generalizing n with
  | nil =>
    cases h
    exact PointwiseRemoval.nil
  | cons t rest ih =>
    cases h
    rw [List.length_cons, List.replicate_succ]
    exact (ih rfl).cons_O t

theorem removeBioulGo_pointwise (ts : List String) :
    ∀ run : Option (String × List String),
      PointwiseRemoval (removeBioulGo run ts)
        ((match run with | none => [] | some (_, buf) => buf) ++ ts) := by
  induction ts with
  | nil =>
    intro run
    cases run with
    | none => exact PointwiseRemoval.nil
    | some p =>
      rw [removeBioulGo]
      exact PointwiseRemoval.replicate_O (by simp)
  | cons t rest ih =>
    intro run
    cases run with
    | some p =>
      obtain ⟨l, buf⟩ := p
      rw [removeBioulGo]
      by_cases hI : t = "I-" ++ l
      · rw [if_pos hI]
        simpa using ih (some (l, buf ++ [t]))
      · rw [if_neg hI]
        by_cases hL : t = "L-" ++ l
        · rw [if_pos hL]
          simpa using (PointwiseRemoval.refl buf).append ((ih none).cons_eq t)
        · rw [if_neg hL]
          have hzero : PointwiseRemoval (List.replicate (buf.length + 1) "O") (buf ++ [t]) :=
            PointwiseRemoval.replicate_O (by simp)
          simpa using hzero.append (by simpa using ih none)
    | none =>
      rw [removeBioulGo]
      by_cases hO : t = "O"
      · rw [if_pos hO, hO]
        simpa using (by simpa using ih none : PointwiseRemoval (removeBioulGo none rest) rest).cons_eq "O"
      · rw [if_neg hO]
        by_cases hU : strHead t = 'U'
        · rw [if_pos hU]
          simpa using (by simpa using ih none : PointwiseRemoval (removeBioulGo none rest) rest).cons_eq t
        · rw [if_neg hU]
          by_cases hB : strHead t = 'B'
          · rw [if_pos hB]
            simpa using ih (some (strAfterDash t, [t]))
          · rw [if_neg hB]
            simpa using (by simpa using ih none : PointwiseRemoval (removeBioulGo none rest) rest).cons_O t

theorem removeBoulGo_pointwise (ts : List String) :
    ∀ run : Option (String × List String),
      PointwiseRemoval (removeBoulGo run ts)
        ((match run with | none => [] | some (_, buf) => buf) ++ ts) := by
  induction ts with
  | nil =>
    intro run
    cases run with
    | none => exact PointwiseRemoval.nil
    | some p =>
      rw [removeBoulGo]
      exact PointwiseRemoval.replicate_O (by simp)
  | cons t rest ih =>
    intro run
    cases run with
    | some p =>
      obtain ⟨l, buf⟩ := p
      rw [removeBoulGo]
      by_cases hO : t = "O"
      · rw [if_pos hO]
        simpa using ih (some (l, buf ++ [t]))
      · rw [if_neg hO]
        by_cases hL : t = "L-" ++ l
        · rw [if_pos hL]
          simpa using (PointwiseRemoval.refl buf).append ((ih none).cons_eq t)
        · rw [if_neg hL]
          have hzero : PointwiseRemoval (List.replicate (buf.length + 1) "O") (buf ++ [t]) :=
            PointwiseRemoval.replicate_O (by simp)
          simpa using hzero.append (by simpa using ih none)
    | none =>
      rw [removeBoulGo]
      by_cases hO : t = "O"
      · rw [if_pos hO, hO]
        simpa using (by simpa using ih none : PointwiseRemoval (removeBoulGo none rest) rest).cons_eq "O"
      · rw [if_neg hO]
        by_cases hU : strHead t = 'U'
        · rw [if_pos hU]
          simpa using (by simpa using ih none : PointwiseRemoval (removeBoulGo none rest) rest).cons_eq t
        · rw [if_neg hU]
          by_cases hB : strHead t = 'B'
          · rw [if_pos hB]
            simpa using ih (some (strAfterDash t, [t]))
          · rw [if_neg hB]
            simpa using (by simpa using ih none : PointwiseRemoval (removeBoulGo none rest) rest).cons_O t

theorem removeBioGo_pointwise (ts : List String) :
    ∀ (zeroing : Bool) (prev : Option String),
      PointwiseRemoval (removeBioGo zeroing prev ts) ts := by
  induction ts with
  | nil =>
    intro zeroing prev
    exact PointwiseRemoval.nil
  | cons t rest ih =>
    intro zeroing prev
    rw [removeBioGo]
    by_cases hz : zeroing = true ∧ strHead t = 'I'
    · rw [if_pos hz]
      exact (ih true none).cons_O t
    · rw [if_neg hz]
      by_cases hO : t = "O"
      · rw [if_pos hO, hO]
        exact (ih false none).cons_eq "O"
      · rw [if_neg hO]
        by_cases hB : strHead t = 'B'
        · rw [if_pos hB]
          exact (ih false (some (strAfterDash t))).cons_eq t
        · rw [if_neg hB]
          by_cases hprev : prev = some (strAfterDash t)
          · rw [if_pos hprev]
            exact (ih false prev).cons_eq t
          · rw [if_neg hprev]
            exact (ih true none).cons_O t

theorem roleDash_append_ne (r r' : Char) (l l' : String) (h : r ≠ r') :
    roleDash r ++ l ≠ roleDash r' ++ l' := by
  intro he
  have hd := congrArg String.data he
  rw [data_roleDash_append, data_roleDash_append] at hd
  injection hd with h1 _
  exact h h1

theorem parseTag_roleDash (alphabet : List Char) (r : Char) (l : String)
    (hr : alphabet.contains r = true) (hl : l ≠ "") :
    parseTag alphabet (roleDash r ++ l) = some (some (r, l)) := by
  rw [parseTag, if_neg (roleDash_ne_O r l)]
  rw [data_roleDash_append]
  obtain ⟨d⟩ := l
  cases d with
  | nil => exact absurd rfl hl
  | cons c cs =>
    show (if alphabet.contains r = true then some (some (r, (⟨c :: cs⟩ : String))) else none)
        = some (some (r, (⟨c :: cs⟩ : String)))
    rw [if_pos hr]

theorem parseTag_O (alphabet : List Char) : parseTag alphabet "O" = some none := by
  rw [parseTag, if_pos rfl]

theorem parseTags_ok_of_all (alphabet : List Char) (orig : List String) :
    ∀ ts : List String, (∀ t ∈ ts, parseTag alphabet t ≠ none) →
      ∃ ps, parseTags alphabet orig ts = .ok ps := by
  intro ts
  induction ts with
  | nil => exact fun _ => ⟨[], rfl⟩
  | cons t rest ih =>
    intro h
    obtain ⟨p, hp⟩ := Option.ne_none_iff_exists'.1 (h t (by simp))
    obtain ⟨ps, hps⟩ := ih (fun x hx => h x (by simp [hx]))
    exact ⟨p :: ps, by rw [parseTags, hp, hps]⟩

theorem wfBioul_parses (s : List String) :
    (wfBioul s = true → ∀ t ∈ s, parseTag ['B', 'I', 'U', 'L'] t ≠ none)
    ∧ (∀ l, l ≠ "" → wfBioulRun l s = true →
        ∀ t ∈ s, parseTag ['B', 'I', 'U', 'L'] t ≠ none) := by
  induction s with
  | nil =>
    refine ⟨fun _ t ht => absurd ht (by simp), fun l _ h => ?_⟩
    simp [wfBioulRun] at h
  | cons t rest ih =>
    constructor
    · intro h x hx
      rw [wfBioul] at h
      by_cases hO : t = "O"
      · rw [if_pos hO] at h
        rcases List.mem_cons.1 hx with hx1 | hx2
        · rw [hx1, hO, parseTag_O]
          simp
        · exact ih.1 h x hx2
      · rw [if_neg hO] at h
        by_cases hU : wfTagShape 'U' t = true
        · rw [if_pos hU] at h
          obtain ⟨htU, hlU⟩ := wfTagShape_iff.1 hU
          rcases List.mem_cons.1 hx with hx1 | hx2
          · rw [hx1, htU, parseTag_roleDash _ _ _ (by decide) hlU]
            simp
          · exact ih.1 h x hx2
        · rw [if_neg hU] at h
          by_cases hB : wfTagShape 'B' t = true
          · rw [if_pos hB] at h
            obtain ⟨htB, hlB⟩ := wfTagShape_iff.1 hB
            rcases List.mem_cons.1 hx with hx1 | hx2
            · rw [hx1, htB, parseTag_roleDash _ _ _ (by decide) hlB]
              simp
            · exact ih.2 (strAfterDash t) hlB h x hx2
          · rw [if_neg hB] at h
            cases h
    · intro l hl h x hx
      rw [wfBioulRun] at h
      by_cases hI : t = roleDash 'I' ++ l
      · rw [if_pos hI] at h
        rcases List.mem_cons.1 hx with hx1 | hx2
        · rw [hx1, hI, parseTag_roleDash _ _ _ (by decide) hl]
          simp
        · exact ih.2 l hl h x hx2
      · rw [if_neg hI] at h
        by_cases hL : t = roleDash 'L' ++ l
        · rw [if_pos hL] at h
          rcases List.mem_cons.1 hx with hx1 | hx2
          · rw [hx1, hL, parseTag_roleDash _ _ _ (by decide) hl]
            simp
          · exact ih.1 h x hx2
        · rw [if_neg hL] at h
          cases h

theorem wfBoul_parses (s : List String) :
    (wfBoul s = true → ∀ t ∈ s, parseTag ['B', 'U', 'L'] t ≠ none)
    ∧ (∀ l, l ≠ "" → wfBoulRun l s = true →
        ∀ t ∈ s, parseTag ['B', 'U', 'L'] t ≠ none) := by
  induction s with
  | nil =>
    refine ⟨fun _ t ht => absurd ht (by simp), fun l _ h => ?_⟩
    simp [wfBoulRun] at h
  | cons t rest ih =>
    constructor
    · intro h x hx
      rw [wfBoul] at h
      by_cases hO : t = "O"
      · rw [if_pos hO] at h
        rcases List.mem_cons.1 hx with hx1 | hx2
        · rw [hx1, hO, parseTag_O]
          simp
        · exact ih.1 h x hx2
      · rw [if_neg hO] at h
        by_cases hU : wfTagShape 'U' t = true
        · rw [if_pos hU] at h
          obtain ⟨htU, hlU⟩ := wfTagShape_iff.1 hU
          rcases List.mem_cons.1 hx with hx1 | hx2
          · rw [hx1, htU, parseTag_roleDash _ _ _ (by decide) hlU]
            simp
          · exact ih.1 h x hx2
        · rw [if_neg hU] at h
          by_cases hB : wfTagShape 'B' t = true
          · rw [if_pos hB] at h
            obtain ⟨htB, hlB⟩ := wfTagShape_iff.1 hB
            rcases List.mem_cons.1 hx with hx1 | hx2
            · rw [hx1, htB, parseTag_roleDash _ _ _ (by decide) hlB]
              simp
            · exact ih.2 (strAfterDash t) hlB h x hx2
          · rw [if_neg hB] at h
            cases h
    · intro l hl h x hx
      rw [wfBoulRun] at h
      by_cases hO : t = "O"
      · rw [if_pos hO] at h
        rcases List.mem_cons.1 hx with hx1 | hx2
        · rw [hx1, hO, parseTag_O]
          simp
        · exact ih.2 l hl h x hx2
      · rw [if_neg hO] at h
        by_cases hL : t = roleDash 'L' ++ l
        · rw [if_pos hL] at h
          rcases List.mem_cons.1 hx with hx1 | hx2
          · rw [hx1, hL, parseTag_roleDash _ _ _ (by decide) hl]
            simp
          · exact ih.1 h x hx2
        · rw [if_neg hL] at h
          cases h

theorem wfBio_parses (s : List String) :
    ∀ prev, wfBio prev s = true → ∀ t ∈ s, parseTag ['B', 'I'] t ≠ none := by
  induction s with
  | nil => exact fun _ _ t ht => absurd ht (by simp)
  | cons t rest ih =>
    intro prev h x hx
    rw [wfBio] at h
    by_cases hO : t = "O"
    · rw [if_pos hO] at h
      rcases List.mem_cons.1 hx with hx1 | hx2
      · rw [hx1, hO, parseTag_O]
        simp
      · exact ih none h x hx2
    · rw [if_neg hO] at h
      by_cases hB : wfTagShape 'B' t = true
      · rw [if_pos hB] at h
        obtain ⟨htB, hlB⟩ := wfTagShape_iff.1 hB
        rcases List.mem_cons.1 hx with hx1 | hx2
        · rw [hx1, htB, parseTag_roleDash _ _ _ (by decide) hlB]
          simp
        · exact ih _ h x hx2
      · rw [if_neg hB] at h
        by_cases hI : (wfTagShape 'I' t ∧ prev = some (strAfterDash t))
        · rw [if_pos hI] at h
          obtain ⟨htI, hlI⟩ := wfTagShape_iff.1 hI.1
          rcases List.mem_cons.1 hx with hx1 | hx2
          · rw [hx1, htI, parseTag_roleDash _ _ _ (by decide) hlI]
            simp
          · exact ih prev h x hx2
        · rw [if_neg hI] at h
          cases h

theorem removeBioulGo_wf_id (s : List String) :
    (wfBioul s = true → removeBioulGo none s = s)
    ∧ (∀ l buf, l ≠ "" → wfBioulRun l s = true →
        removeBioulGo (some (l, buf)) s = buf ++ s) := by
  induction s with
  | nil =>
    refine ⟨fun _ => rfl, fun l buf _ h => ?_⟩
    simp [wfBioulRun] at h
  | cons t rest ih =>
    constructor
    · intro h
      rw [wfBioul] at h
      rw [removeBioulGo]
      by_cases hO : t = "O"
      · rw [if_pos hO] at h
        rw [if_pos hO, ih.1 h, hO]
      · rw [if_neg hO] at h
        rw [if_neg hO]
        by_cases hU : wfTagShape 'U' t = true
        · rw [if_pos hU] at h
          obtain ⟨htU, -⟩ := wfTagShape_iff.1 hU
          rw [if_pos (by rw [htU]; exact strHead_roleDash 'U' _), ih.1 h]
        · rw [if_neg hU] at h
          by_cases hB : wfTagShape 'B' t = true
          · rw [if_pos hB] at h
            obtain ⟨htB, hlB⟩ := wfTagShape_iff.1 hB
            rw [if_neg (by rw [htB, strHead_roleDash]; decide)]
            rw [if_pos (by rw [htB]; exact strHead_roleDash 'B' _)]
            rw [ih.2 (strAfterDash t) [t] hlB h]
            rfl
          · rw [if_neg hB] at h
            cases h
    · intro l buf hl h
      rw [wfBioulRun] at h
      rw [removeBioulGo]
      by_cases hI : t = roleDash 'I' ++ l
      · rw [if_pos hI] at h
        rw [if_pos (show t = "I-" ++ l from hI)]
        rw [ih.2 l (buf ++ [t]) hl h]
        simp
      · rw [if_neg hI] at h
        by_cases hL : t = roleDash 'L' ++ l
        · rw [if_pos hL] at h
          rw [if_neg (show ¬ t = "I-" ++ l from hI)]
          rw [if_pos (show t = "L-" ++ l from hL), ih.1 h]
        · rw [if_neg hL] at h
          cases h

theorem removeBoulGo_wf_id (s : List String) :
    (wfBoul s = true → removeBoulGo none s = s)
    ∧ (∀ l buf, l ≠ "" → wfBoulRun l s = true →
        removeBoulGo (some (l, buf)) s = buf ++ s) := by
  induction s with
  | nil =>
    refine ⟨fun _ => rfl, fun l buf _ h => ?_⟩
    simp [wfBoulRun] at h
  | cons t rest ih =>
    constructor
    · intro h
      rw [wfBoul] at h
      rw [removeBoulGo]
      by_cases hO : t = "O"
      · rw [if_pos hO] at h
        rw [if_pos hO, ih.1 h, hO]
      · rw [if_neg hO] at h
        rw [if_neg hO]
        by_cases hU : wfTagShape 'U' t = true
        · rw [if_pos hU] at h
          obtain ⟨htU, -⟩ := wfTagShape_iff.1 hU
          rw [if_pos (by rw [htU]; exact strHead_roleDash 'U' _), ih.1 h]
        · rw [if_neg hU] at h
          by_cases hB : wfTagShape 'B' t = true
          · rw [if_pos hB] at h
            obtain ⟨htB, hlB⟩ := wfTagShape_iff.1 hB
            rw [if_neg (by rw [htB, strHead_roleDash]; decide)]
            rw [if_pos (by rw [htB]; exact strHead_roleDash 'B' _)]
            rw [ih.2 (strAfterDash t) [t] hlB h]
            rfl
          · rw [if_neg hB] at h
            cases h
    · intro l buf hl h
      rw [wfBoulRun] at h
      rw [removeBoulGo]
      by_cases hO : t = "O"
      · rw [if_pos hO] at h
        rw [if_pos hO]
        rw [ih.2 l (buf ++ [t]) hl h]
        rw [hO]
        simp
      · rw [if_neg hO] at h
        by_cases hL : t = roleDash 'L' ++ l
        · rw [if_pos hL] at h
          rw [if_neg hO, if_pos (show t = "L-" ++ l from hL), ih.1 h]
        · rw [if_neg hL] at h
          cases h

theorem removeBioGo_wf_id (s : List String) :
    ∀ prev, wfBio prev s = true → removeBioGo false prev s = s := by
  induction s with
  | nil => exact fun _ _ => rfl
  | cons t rest ih =>
    intro prev h
    rw [wfBio] at h
    rw [removeBioGo]
    rw [if_neg (by simp)]
    by_cases hO : t = "O"
    · rw [if_pos hO] at h
      rw [if_pos hO, ih none h, hO]
    · rw [if_neg hO] at h
      rw [if_neg hO]
      by_cases hB : wfTagShape 'B' t = true
      · rw [if_pos hB] at h
        obtain ⟨htB, -⟩ := wfTagShape_iff.1 hB
        rw [if_pos (by rw [htB]; exact strHead_roleDash 'B' _), ih _ h]
      · rw [if_neg hB] at h
        by_cases hI : (wfTagShape 'I' t ∧ prev = some (strAfterDash t))
        · rw [if_pos hI] at h
          obtain ⟨htI, -⟩ := wfTagShape_iff.1 hI.1
          rw [if_neg (by rw [htI, strHead_roleDash]; decide)]
          rw [if_pos hI.2, ih prev h]
        · rw [if_neg hI] at h
          cases h

/-- **C6** — Removal only subtracts.  For every tag sequence: whenever
`remove_bio` / `remove_bioul` / `remove_boul` returns a sequence, that
sequence has the same length and is pointwise either the input's tag or
`"O"` (never a new label or role letter); and on an entirely
well-formed sequence each removal returns the input unchanged. -/
theorem removal_only_subtracts (s : List String) :
    (∀ out, remove_bio s = .ok out → PointwiseRemoval out s)
    ∧ (∀ out, remove_bioul s = .ok out → PointwiseRemoval out s)
    ∧ (∀ out, remove_boul s = .ok out → PointwiseRemoval out s)
    ∧ (wfBio none s = true → remove_bio s = .ok s)
    ∧ (wfBioul s = true → remove_bioul s = .ok s)
    ∧ (wfBoul s = true → remove_boul s = .ok s) := by
  refine ⟨?_, ?_, ?_, ?_, ?_, ?_⟩
  · intro out h
    rw [remove_bio] at h
    cases hp : parseTags ['B', 'I'] s s with
    | error e => rw [hp] at h; cases h
    | ok ps =>
      rw [hp] at h
      cases h
      exact removeBioGo_pointwise s false none
  · intro out h
    rw [remove_bioul] at h
    cases hp : parseTags ['B', 'I', 'U', 'L'] s s with
    | error e => rw [hp] at h; cases h
    | ok ps =>
      rw [hp] at h
      cases h
      simpa using removeBioulGo_pointwise s none
  · intro out h
    rw [remove_boul] at h
    cases hp : parseTags ['B', 'U', 'L'] s s with
    | error e => rw [hp] at h; cases h
    | ok ps =>
      rw [hp] at h
      cases h
      simpa using removeBoulGo_pointwise s none
  · intro h
    obtain ⟨ps, hps⟩ := parseTags_ok_of_all ['B', 'I'] s s (wfBio_parses s none h)
    rw [remove_bio, hps, removeBioGo_wf_id s none h]
  · intro h
    obtain ⟨ps, hps⟩ := parseTags_ok_of_all ['B', 'I', 'U', 'L'] s s ((wfBioul_parses s).1 h)
    rw [remove_bioul, hps, (removeBioulGo_wf_id s).1 h]
  · intro h
    obtain ⟨ps, hps⟩ := parseTags_ok_of_all ['B', 'U', 'L'] s s ((wfBoul_parses s).1 h)
    rw [remove_boul, hps, (removeBoulGo_wf_id s).1 h]

/-- Witness for C6: pointwise non-introduction on an ill-formed BIOUL
sequence and identity on a well-formed one. -/
theorem removal_only_subtracts_witness :
    PointwiseRemoval ["O", "O", "O", "O"] ["B-x", "I-x", "I-x", "O"]
    ∧ remove_bioul ["B-x", "I-x", "L-x", "O", "U-y"] = .ok ["B-x", "I-x", "L-x", "O", "U-y"] := by
  constructor
  · exact (removal_only_subtracts ["B-x", "I-x", "I-x", "O"]).2.1 _ (by decide)
  · exact (removal_only_subtracts ["B-x", "I-x", "L-x", "O", "U-y"]).2.2.2.2.1 (by decide)

/-! ## Claim C5: repair preserves length and labels -/

theorem tagLabel_O : tagLabel "O" = none := by
  rw [tagLabel, if_pos rfl]

theorem tagLabel_roleDash (r : Char) (l : String) (h : r ≠ '-') :
    tagLabel (roleDash r ++ l) = some l := by
  rw [tagLabel, if_neg (roleDash_ne_O r l), strAfterDash_roleDash r l h]

theorem fixBioGo_labels (ts : List String) :
    ∀ prev, (fixBioGo prev ts).map tagLabel = ts.map tagLabel := by
  induction ts with
  | nil => exact fun _ => rfl
  | cons t rest ih =>
    intro prev
    rw [fixBioGo]
    by_cases hO : t = "O"
    · rw [if_pos hO, hO]
      simp [ih]
    · rw [if_neg hO]
      by_cases hB : strHead t = 'B'
      · rw [if_pos hB]
        simp [ih]
      · rw [if_neg hB]
        by_cases hp : prev = some (strAfterDash t)
        · rw [if_pos hp]
          simp [ih]
        · rw [if_neg hp]
          simp only [List.map_cons, ih]
          congr 1
          rw [show ("B-" ++ strAfterDash t : String) = roleDash 'B' ++ strAfterDash t from rfl]
          rw [tagLabel_roleDash 'B' _ (by decide), tagLabel, if_neg hO]

theorem recodeBioulGroup_labels (l : String) (n : Nat) (h : 1 ≤ n) :
    (recodeBioulGroup l n).map tagLabel = List.replicate n (some l) := by
  rw [recodeBioulGroup]
  rcases Nat.lt_or_ge n 2 with h2 | h2
  · have hn1 : n = 1 := by omega
    rw [if_pos hn1, hn1]
    simp only [List.map_cons, List.map_nil]
    rw [show ("U-" ++ l : String) = roleDash 'U' ++ l from rfl,
      tagLabel_roleDash 'U' l (by decide)]
    rfl
  · rw [if_neg (by omega)]
    simp only [List.map_cons, List.map_append, List.map_replicate, List.map_nil]
    rw [show ("B-" ++ l : String) = roleDash 'B' ++ l from rfl,
      tagLabel_roleDash 'B' l (by decide)]
    rw [show ("I-" ++ l : String) = roleDash 'I' ++ l from rfl,
      tagLabel_roleDash 'I' l (by decide)]
    rw [show ("L-" ++ l : String) = roleDash 'L' ++ l from rfl,
      tagLabel_roleDash 'L' l (by decide)]
    rw [show n = (n - 2) + 1 + 1 by omega]
    rw [List.replicate_succ]
    rw [List.replicate_succ']
    rw [show n - 2 + 1 + 1 - 2 = n - 2 by omega]

theorem fixBioulGo_labels (ps : List (Option (Char × String))) :
    ∀ pending, pendingBioulWF pending →
      (fixBioulGo pending ps).map tagLabel
        = pendingBioulLabels pending ++ ps.map (Option.map Prod.snd) := by
  induction ps with
  | nil =>
    intro pending hwf
    cases pending with
    | none => rfl
    | some p =>
      obtain ⟨l, n, op⟩ := p
      rw [fixBioulGo, pendingBioulLabels]
      simp [recodeBioulGroup_labels l n hwf]
  | cons p rest ih =>
    intro pending hwf
    cases p with
    | none =>
      cases pending with
      | none =>
        rw [fixBioulGo]
        simp only [List.map_cons, tagLabel_O, pendingBioulLabels]
        rw [ih none trivial]
        simp [pendingBioulLabels]
      | some q =>
        obtain ⟨l, n, op⟩ := q
        rw [fixBioulGo]
        simp only [List.map_append, List.map_cons, tagLabel_O, pendingBioulLabels]
        rw [recodeBioulGroup_labels l n hwf, ih none trivial]
        simp [pendingBioulLabels]
    | some q =>
      obtain ⟨r', l'⟩ := q
      cases pending with
      | none =>
        rw [fixBioulGo]
        rw [ih (some (l', 1, r' = 'B' ∨ r' = 'I')) (by rw [pendingBioulWF])]
        simp [pendingBioulLabels]
      | some q2 =>
        obtain ⟨l, n, op⟩ := q2
        rw [fixBioulGo]
        by_cases hcond : l' = l ∧ (r' = 'L' ∨ op = true)
        · rw [if_pos hcond]
          rw [ih (some (l, n + 1, r' = 'B' ∨ r' = 'I')) (by rw [pendingBioulWF]; omega)]
          simp only [pendingBioulLabels, List.map_cons]
          rw [hcond.1]
          rw [List.replicate_succ']
          simp
        · rw [if_neg hcond]
          simp only [List.map_append, List.map_cons, pendingBioulLabels]
          rw [recodeBioulGroup_labels l n hwf]
          rw [ih (some (l', 1, r' = 'B' ∨ r' = 'I')) (by rw [pendingBioulWF])]
          simp [pendingBioulLabels]

theorem parseTag_some_none {alphabet : List Char} {t : String}
    (h : parseTag alphabet t = some none) : t = "O" := by
  rw [parseTag] at h
  by_cases hO : t = "O"
  · exact hO
  · rw [if_neg hO] at h
    split at h
    · split at h <;> simp at h
    · simp at h

theorem parseTag_some_some {alphabet : List Char} {t : String} {r : Char} {lab : String}
    (h : parseTag alphabet t = some (some (r, lab))) :
    t = roleDash r ++ lab ∧ alphabet.contains r = true ∧ lab ≠ "" := by
  rw [parseTag] at h
  by_cases hO : t = "O"
  · rw [if_pos hO] at h
    simp at h
  · rw [if_neg hO] at h
    split at h
    · next rr c cs heq =>
      split at h
      · next hcont =>
        simp only [Option.some.injEq, Prod.mk.injEq] at h
        obtain ⟨hr, hlab⟩ := h
        refine ⟨?_, by rw [← hr]; exact hcont, ?_⟩
        · apply String.ext
          rw [data_roleDash_append, heq, hr, ← hlab]
        · intro hcon
          rw [← hlab] at hcon
          have := congrArg String.data hcon
          simp at this
      · simp at h
    · simp at h

theorem parseTags_labels {alphabet : List Char} (hdash : alphabet.contains '-' = false)
    (orig : List String) :
    ∀ (ts : List String) (ps : List (Option (Char × String))),
      parseTags alphabet orig ts = .ok ps →
      ps.map (Option.map Prod.snd) = ts.map tagLabel := by
  intro ts
  induction ts with
  | nil =>
    intro ps h
    rw [parseTags] at h
    cases h
    rfl
  | cons t rest ih =>
    intro ps h
    rw [parseTags] at h
    cases hp : parseTag alphabet t with
    | none => rw [hp] at h; cases h
    | some p =>
      rw [hp] at h
      cases hr : parseTags alphabet orig rest with
      | error e => rw [hr] at h; cases h
      | ok ps2 =>
        rw [hr] at h
        cases h
        simp only [List.map_cons]
        rw [ih ps2 hr]
        congr 1
        cases p with
        | none =>
          rw [parseTag_some_none hp, tagLabel_O]
          rfl
        | some q =>
          obtain ⟨r, lab⟩ := q
          obtain ⟨ht, hcont, -⟩ := parseTag_some_some hp
          have hrne : r ≠ '-' := by
            intro hc
            rw [hc] at hcont
            rw [hcont] at hdash
            cases hdash
          rw [ht, tagLabel_roleDash r lab hrne]
          rfl

theorem recodeBoulGroup_length (l : String) (n : Nat) (h : 1 ≤ n) :
    (recodeBoulGroup l n).length = n := by
  rw [recodeBoulGroup]
  rcases Nat.lt_or_ge n 2 with h2 | h2
  · rw [if_pos (by omega)]
    simp
    omega
  · rw [if_neg (by omega)]
    simp
    omega

theorem fixBoulGo_length (ps : List (Option (Char × String))) :
    ∀ pending, pendingBoulWF pending →
      (fixBoulGo pending ps).length = pendingBoulLen pending + ps.length := by
  induction ps with
  | nil =>
    intro pending hwf
    cases pending with
    | none => rfl
    | some p =>
      obtain ⟨l, r, n, g⟩ := p
      have hn : 1 ≤ n := hwf
      rw [fixBoulGo, pendingBoulLen]
      by_cases hr : r = 'B'
      · rw [if_pos hr, recodeBoulGroup_length l (n + g) (by omega)]
        simp
      · rw [if_neg hr]
        simp [recodeBoulGroup_length l n hwf]
  | cons p rest ih =>
    intro pending hwf
    cases p with
    | none =>
      cases pending with
      | none =>
        rw [fixBoulGo]
        simp [ih none trivial, pendingBoulLen]
      | some q =>
        obtain ⟨l, r, n, g⟩ := q
        rw [fixBoulGo]
        rw [ih (some (l, r, n, g + 1)) hwf]
        simp [pendingBoulLen]
        omega
    | some q =>
      obtain ⟨r', l'⟩ := q
      cases pending with
      | none =>
        rw [fixBoulGo]
        rw [ih (some (l', r', 1, 0)) (by rw [pendingBoulWF])]
        simp [pendingBoulLen]
        omega
      | some q2 =>
        obtain ⟨l, r, n, g⟩ := q2
        have hn : 1 ≤ n := hwf
        rw [fixBoulGo]
        by_cases hcond : l' = l ∧ (r' = 'L' ∨ r = 'B')
        · rw [if_pos hcond]
          rw [ih (some (l, r', n + g + 1, 0)) (by rw [pendingBoulWF]; omega)]
          simp [pendingBoulLen]
          omega
        · rw [if_neg hcond]
          by_cases hB : r = 'B'
          · rw [if_pos hB]
            rw [List.length_append, recodeBoulGroup_length l (n + g) (by omega)]
            rw [ih (some (l', r', 1, 0)) (by rw [pendingBoulWF])]
            simp [pendingBoulLen]
            omega
          · rw [if_neg hB]
            by_cases hL : r' = 'L'
            · rw [if_pos hL]
              rw [List.length_append, recodeBoulGroup_length l n hwf]
              rw [ih (some (l', r', g + 1, 0)) (by rw [pendingBoulWF]; omega)]
              simp [pendingBoulLen]
              omega
            · rw [if_neg hL]
              rw [List.length_append, recodeBoulGroup_length l n hwf]
              rw [List.length_append, List.length_replicate]
              rw [ih (some (l', r', 1, 0)) (by rw [pendingBoulWF])]
              simp [pendingBoulLen]
              omega

theorem boulToBioulGo_cons_nonB {t : String} {xs b : List String}
    (ht : ¬ strHead t = 'B') (h : boulToBioulGo none xs = .ok b) :
    boulToBioulGo none (t :: xs) = .ok (t :: b) := by
  rw [boulToBioulGo, if_neg ht, h]

theorem boulToBioulGo_replicate_O {xs b : List String} (g : Nat)
    (h : boulToBioulGo none xs = .ok b) :
    boulToBioulGo none (List.replicate g "O" ++ xs)
      = .ok (List.replicate g "O" ++ b) := by
  induction g with
  | zero => simpa using h
  | succ m ih =>
    rw [List.replicate_succ, List.cons_append]
    rw [boulToBioulGo_cons_nonB (by rw [show strHead "O" = 'O' from rfl]; decide) ih]
    simp [List.replicate_succ]

theorem boulToBioulGo_run (l : String) (k : Nat) {xs b : List String}
    (h : boulToBioulGo none xs = .ok b) :
    boulToBioulGo (some l) (List.replicate k "O" ++ ((roleDash 'L' ++ l) :: xs))
      = .ok (List.replicate k ("I-" ++ l) ++ ((roleDash 'L' ++ l) :: b)) := by
  induction k with
  | zero =>
    simp only [List.replicate, List.nil_append]
    rw [boulToBioulGo, if_pos (strHead_roleDash 'L' l), h]
  | succ m ih =>
    rw [List.replicate_succ, List.cons_append, boulToBioulGo]
    rw [if_neg (by rw [show strHead "O" = 'O' from rfl]; decide)]
    rw [ih]
    simp [List.replicate_succ]

theorem boulToBioulGo_block (l : String) (n : Nat) (hn : 1 ≤ n) {xs b : List String}
    (h : boulToBioulGo none xs = .ok b) :
    boulToBioulGo none (recodeBoulGroup l n ++ xs)
      = .ok (recodeBioulGroup l n ++ b) := by
  rcases Nat.lt_or_ge n 2 with h2 | h2
  · have hn1 : n = 1 := by omega
    subst hn1
    rw [recodeBoulGroup, if_pos rfl, recodeBioulGroup, if_pos rfl]
    rw [List.cons_append, List.nil_append]
    exact boulToBioulGo_cons_nonB
      (by rw [show ("U-" ++ l : String) = roleDash 'U' ++ l from rfl, strHead_roleDash]; decide) h
  · rw [recodeBoulGroup, if_neg (by omega), recodeBioulGroup, if_neg (by omega)]
    rw [List.cons_append, boulToBioulGo]
    rw [if_pos (show strHead ("B-" ++ l) = 'B' from strHead_roleDash 'B' l)]
    rw [show strDrop2 ("B-" ++ l) = l from strDrop2_roleDash 'B' l]
    rw [List.append_assoc, List.singleton_append]
    rw [show ("L-" ++ l : String) = roleDash 'L' ++ l from rfl]
    rw [boulToBioulGo_run l (n - 2) h]
    simp

theorem LabelsDominate.refl_ld (xs : List (Option String)) : LabelsDominate xs xs :=
  ⟨rfl, fun _ _ h => h⟩

theorem LabelsDominate.append_ld {o1 i1 o2 i2 : List (Option String)}
    (h1 : LabelsDominate o1 i1) (h2 : LabelsDominate o2 i2) :
    LabelsDominate (o1 ++ o2) (i1 ++ i2) := by
  refine ⟨by simp [h1.1, h2.1], fun i l h => ?_⟩
  rcases Nat.lt_or_ge i i1.length with hlt | hge
  · rw [List.getElem?_append_left hlt] at h
    rw [List.getElem?_append_left (h1.1 ▸ hlt)]
    exact h1.2 i l h
  · rw [List.getElem?_append_right hge] at h
    rw [List.getElem?_append_right (h1.1 ▸ hge), h1.1]
    exact h2.2 (i - i1.length) l h

theorem getElem?_replicate_opt (x : Option String) (n i : Nat) :
    (List.replicate n x)[i]? = if i < n then some x else none := by
  rw [List.getElem?_replicate]

theorem LabelsDominate.flush_open (l : String) (n g : Nat) :
    LabelsDominate (List.replicate (n + g) (some l : Option String))
      (List.replicate n (some l : Option String) ++ List.replicate g (none : Option String)) := by
  refine ⟨by simp, fun i lab h => ?_⟩
  rcases Nat.lt_or_ge i n with hlt | hge
  · rw [List.getElem?_append_left (by simpa using hlt)] at h
    rw [getElem?_replicate_opt, if_pos hlt] at h
    rw [getElem?_replicate_opt, if_pos (by omega)]
    exact h
  · rw [List.getElem?_append_right (by simpa using hge)] at h
    rw [List.length_replicate] at h
    rw [getElem?_replicate_opt] at h
    split at h
    · cases h
    · cases h

theorem LabelsDominate.pad (out : List (Option String)) (m k : Nat) (l : String)
    (X : List (Option String))
    (h : LabelsDominate out (List.replicate (m + k + 1) (some l : Option String) ++ X)) :
    LabelsDominate out
      (List.replicate m (some l : Option String)
        ++ (List.replicate k (none : Option String) ++ ((some l : Option String) :: X))) := by
  refine ⟨by have := h.1; simp at this ⊢; omega, fun i lab hget => ?_⟩
  apply h.2 i lab
  rcases Nat.lt_or_ge i m with hlt | hge
  · rw [List.getElem?_append_left (by simpa using hlt)] at hget
    rw [getElem?_replicate_opt, if_pos hlt] at hget
    rw [List.getElem?_append_left (by simp; omega)]
    rw [getElem?_replicate_opt, if_pos (by omega)]
    exact hget
  · rw [List.getElem?_append_right (by simpa using hge)] at hget
    rw [List.length_replicate] at hget
    rcases Nat.lt_or_ge (i - m) k with hlt2 | hge2
    · rw [List.getElem?_append_left (by simpa using hlt2)] at hget
      rw [getElem?_replicate_opt, if_pos hlt2] at hget
      cases hget
    · rw [List.getElem?_append_right (by simpa using hge2)] at hget
      rw [List.length_replicate] at hget
      rcases Nat.eq_or_lt_of_le hge2 with heq | hlt3
      · rw [show i - m - k = 0 by omega] at hget
        rw [List.getElem?_cons_zero] at hget
        rw [List.getElem?_append_left (by simp; omega)]
        rw [getElem?_replicate_opt, if_pos (by omega)]
        exact hget
      · rw [show i - m - k = (i - m - k - 1) + 1 by omega] at hget
        rw [List.getElem?_cons_succ] at hget
        rw [List.getElem?_append_right (by simp; omega)]
        rw [List.length_replicate]
        rw [show i - (m + k + 1) = i - m - k - 1 by omega]
        exact hget

theorem LabelsDominate.cons {o i : List (Option String)} (x y : Option String)
    (hxy : ∀ l : String, y = some l → x = some l)
    (h : LabelsDominate o i) : LabelsDominate (x :: o) (y :: i) := by
  refine ⟨by simp [h.1], fun j l hget => ?_⟩
  cases j with
  | zero =>
    rw [List.getElem?_cons_zero] at hget ⊢
    rw [hxy l (by injection hget)]
  | succ m =>
    rw [List.getElem?_cons_succ] at hget ⊢
    exact h.2 m l hget

theorem fixBoulGo_bioulize (ps : List (Option (Char × String))) :
    ∀ pending, pendingBoulWF pending →
      ∃ bio, boulToBioulGo none (fixBoulGo pending ps) = .ok bio
        ∧ LabelsDominate (bio.map tagLabel)
            (pendingBoulLabels pending ++ ps.map (Option.map Prod.snd)) := by
  induction ps with
  | nil =>
    intro pending hwf
    cases pending with
    | none => exact ⟨[], rfl, LabelsDominate.refl_ld []⟩
    | some p =>
      obtain ⟨l, r, n, g⟩ := p
      have hn : 1 ≤ n := hwf
      rw [fixBoulGo]
      by_cases hr : r = 'B'
      · rw [if_pos hr]
        refine ⟨recodeBioulGroup l (n + g), ?_, ?_⟩
        · have h0 : boulToBioulGo none ([] : List String) = .ok [] := rfl
          have := boulToBioulGo_block l (n + g) (by omega) h0
          simpa using this
        · rw [recodeBioulGroup_labels l (n + g) (by omega)]
          simp only [pendingBoulLabels, List.map_nil, List.append_nil]
          exact LabelsDominate.flush_open l n g
      · rw [if_neg hr]
        refine ⟨recodeBioulGroup l n ++ List.replicate g "O", ?_, ?_⟩
        · have hOg : boulToBioulGo none (List.replicate g "O") = .ok (List.replicate g "O") := by
            have h0 : boulToBioulGo none ([] : List String) = .ok [] := rfl
            have := boulToBioulGo_replicate_O g h0
            simpa using this
          exact boulToBioulGo_block l n hn hOg
        · simp only [List.map_append, List.map_replicate, tagLabel_O,
            pendingBoulLabels, List.map_nil, List.append_nil]
          rw [recodeBioulGroup_labels l n hn]
          exact LabelsDominate.refl_ld _
  | cons p rest ih =>
    intro pending hwf
    cases p with
    | none =>
      cases pending with
      | none =>
        obtain ⟨bio, hbio, hdom⟩ := ih none trivial
        rw [fixBoulGo]
        refine ⟨"O" :: bio, ?_, ?_⟩
        · exact boulToBioulGo_cons_nonB (by rw [show strHead "O" = 'O' from rfl]; decide) hbio
        · simp only [List.map_cons, tagLabel_O, pendingBoulLabels, List.nil_append,
            Option.map_none'] at hdom ⊢
          exact hdom.cons none none (fun l h => h)
      | some q =>
        obtain ⟨l, r, n, g⟩ := q
        have hn : 1 ≤ n := hwf
        rw [fixBoulGo]
        obtain ⟨bio, hbio, hdom⟩ := ih (some (l, r, n, g + 1)) hn
        refine ⟨bio, hbio, ?_⟩
        have heq : (pendingBoulLabels (some (l, r, n, g + 1))
              ++ rest.map (Option.map Prod.snd))
            = pendingBoulLabels (some (l, r, n, g))
              ++ (none :: rest.map (Option.map Prod.snd)) := by
          simp only [pendingBoulLabels]
          rw [show (List.replicate (g + 1) (none : Option String))
              = List.replicate g (none : Option String) ++ [none] from List.replicate_succ' ..]
          simp
        simp only [List.map_cons, Option.map_none']
        rw [← heq]
        simpa using hdom
    | some q =>
      obtain ⟨r', l'⟩ := q
      cases pending with
      | none =>
        rw [fixBoulGo]
        obtain ⟨bio, hbio, hdom⟩ := ih (some (l', r', 1, 0)) (by rw [pendingBoulWF])
        refine ⟨bio, hbio, ?_⟩
        simp only [pendingBoulLabels, List.nil_append] at hdom ⊢
        simpa using hdom
      | some q2 =>
        obtain ⟨l, r, n, g⟩ := q2
        have hn : 1 ≤ n := hwf
        rw [fixBoulGo]
        by_cases hcond : l' = l ∧ (r' = 'L' ∨ r = 'B')
        · rw [if_pos hcond]
          obtain ⟨bio, hbio, hdom⟩ := ih (some (l, r', n + g + 1, 0)) (by rw [pendingBoulWF]; omega)
          refine ⟨bio, hbio, ?_⟩
          simp only [pendingBoulLabels, List.replicate, List.append_nil] at hdom
          have hpad := LabelsDominate.pad (bio.map tagLabel) n g l
            (rest.map (Option.map Prod.snd)) (by simpa using hdom)
          simp only [pendingBoulLabels, List.map_cons, Option.map_some]
          rw [hcond.1]
          simpa [List.append_assoc] using hpad
        · rw [if_neg hcond]
          by_cases hB : r = 'B'
          · rw [if_pos hB]
            obtain ⟨bio, hbio, hdom⟩ := ih (some (l', r', 1, 0)) (by rw [pendingBoulWF])
            refine ⟨recodeBioulGroup l (n + g) ++ bio, boulToBioulGo_block l (n + g) (by omega) hbio, ?_⟩
            simp only [List.map_append, pendingBoulLabels, List.map_cons, Option.map_some]
            rw [recodeBioulGroup_labels l (n + g) (by omega)]
            have hd1 := LabelsDominate.flush_open l n g
            have hd2 : LabelsDominate (bio.map tagLabel)
                ((some l' : Option String) :: rest.map (Option.map Prod.snd)) := by
              simpa [pendingBoulLabels] using hdom
            simpa [List.append_assoc] using hd1.append_ld hd2
          · rw [if_neg hB]
            by_cases hL : r' = 'L'
            · rw [if_pos hL]
              obtain ⟨bio, hbio, hdom⟩ := ih (some (l', r', g + 1, 0)) (by rw [pendingBoulWF]; omega)
              refine ⟨recodeBioulGroup l n ++ bio, boulToBioulGo_block l n hn hbio, ?_⟩
              simp only [List.map_append, pendingBoulLabels, List.map_cons, Option.map_some]
              rw [recodeBioulGroup_labels l n hn]
              have hpad := LabelsDominate.pad (bio.map tagLabel) 0 g l'
                (rest.map (Option.map Prod.snd)) (by simpa [pendingBoulLabels] using hdom)
              have hd1 := LabelsDominate.refl_ld (List.replicate n (some l : Option String))
              simpa [List.append_assoc] using hd1.append_ld (by simpa using hpad)
            · rw [if_neg hL]
              obtain ⟨bio, hbio, hdom⟩ := ih (some (l', r', 1, 0)) (by rw [pendingBoulWF])
              have hOg : boulToBioulGo none
                  (List.replicate g "O" ++ fixBoulGo (some (l', r', 1, 0)) rest)
                  = .ok (List.replicate g "O" ++ bio) :=
                boulToBioulGo_replicate_O g hbio
              refine ⟨recodeBioulGroup l n ++ (List.replicate g "O" ++ bio),
                boulToBioulGo_block l n hn hOg, ?_⟩
              simp only [List.map_append, pendingBoulLabels, List.map_cons, Option.map_some,
                List.map_replicate, tagLabel_O]
              rw [recodeBioulGroup_labels l n hn]
              have hd1 := LabelsDominate.refl_ld (List.replicate n (some l : Option String))
              have hd2 := LabelsDominate.refl_ld (List.replicate g (none : Option String))
              have hd3 : LabelsDominate (bio.map tagLabel)
                  ((some l' : Option String) :: rest.map (Option.map Prod.snd)) := by
                simpa [pendingBoulLabels] using hdom
              simpa [List.append_assoc] using hd1.append_ld (hd2.append_ld hd3)

/-- **C5** — Repair preserves length and labels.  Whenever `fix_bio` or
`fix_bioul` returns a sequence, it has the same length and exactly the
same label at every position (only the role letters B/I/U/L change).
Whenever `fix_boul` returns a sequence, it has the same length, and
re-expanding its interior `O` positions with the source's
`boul_to_bioul` yields a sequence in which every position that carried
a label in the input carries the same label (interior `O` positions of
a span count as inside that span); no labeled position is discarded. -/
theorem repair_preserves_length_and_labels (s : List String) :
    (∀ out, fix_bio s = .ok out →
      out.length = s.length ∧ out.map tagLabel = s.map tagLabel)
    ∧ (∀ out, fix_bioul s = .ok out →
      out.length = s.length ∧ out.map tagLabel = s.map tagLabel)
    ∧ (∀ out, fix_boul s = .ok out →
      out.length = s.length
      ∧ ∃ bio, boul_to_bioul out = .ok bio
          ∧ LabelsDominate (bio.map tagLabel) (s.map tagLabel)) := by
  refine ⟨?_, ?_, ?_⟩
  · intro out h
    rw [fix_bio] at h
    cases hp : parseTags ['B', 'I'] s s with
    | error e => rw [hp] at h; cases h
    | ok ps =>
      rw [hp] at h
      cases h
      have hlab := fixBioGo_labels s none
      refine ⟨?_, hlab⟩
      have := congrArg List.length hlab
      simpa using this
  · intro out h
    rw [fix_bioul] at h
    cases hp : parseTags ['B', 'I', 'U', 'L'] s s with
    | error e => rw [hp] at h; cases h
    | ok ps =>
      rw [hp] at h
      cases h
      have hlab : (fixBioulGo none ps).map tagLabel = s.map tagLabel := by
        rw [fixBioulGo_labels ps none trivial]
        simpa [pendingBioulLabels] using parseTags_labels (by decide) s s ps hp
      refine ⟨?_, hlab⟩
      have := congrArg List.length hlab
      simpa using this
  · intro out h
    rw [fix_boul] at h
    cases hp : parseTags ['B', 'U', 'L'] s s with
    | error e => rw [hp] at h; cases h
    | ok ps =>
      rw [hp] at h
      cases h
      have hps : ps.map (Option.map Prod.snd) = s.map tagLabel :=
        parseTags_labels (by decide) s s ps hp
      have hpslen : ps.length = s.length := by
        have := congrArg List.length hps
        simpa using this
      constructor
      · rw [fixBoulGo_length ps none trivial]
        simpa [pendingBoulLen] using hpslen
      · obtain ⟨bio, hbio, hdom⟩ := fixBoulGo_bioulize ps none trivial
        refine ⟨bio, hbio, ?_⟩
        simpa [pendingBoulLabels, hps] using hdom

/-- Witness for C5 at concrete ill-formed inputs for the three schemes. -/
theorem repair_preserves_witness :
    (["B-x", "I-x", "B-y", "O"].length = ["B-x", "I-x", "I-y", "O"].length
      ∧ ["B-x", "I-x", "B-y", "O"].map tagLabel = ["B-x", "I-x", "I-y", "O"].map tagLabel)
    ∧ (["B-x", "I-x", "L-x", "O"].length = ["B-x", "I-x", "I-x", "O"].length
      ∧ ["B-x", "I-x", "L-x", "O"].map tagLabel = ["B-x", "I-x", "I-x", "O"].map tagLabel)
    ∧ (["O", "B-x", "O", "O", "L-x"].length = ["O", "B-x", "O", "O", "O"].length
      ∧ ∃ bio, boul_to_bioul ["O", "B-x", "O", "O", "L-x"] = .ok bio
          ∧ LabelsDominate (bio.map tagLabel) (["O", "B-x", "O", "O", "O"].map tagLabel)) := by
  refine ⟨?_, ?_, ?_⟩
  · exact (repair_preserves_length_and_labels ["B-x", "I-x", "I-y", "O"]).1 _ (by decide)
  · exact (repair_preserves_length_and_labels ["B-x", "I-x", "I-x", "O"]).2.1 _ (by decide)
  · exact (repair_preserves_length_and_labels ["O", "B-x", "O", "O", "O"]).2.2 _ (by decide)
